import Mathlib

/-!
Verification development for a two-workflow LLM agent orchestration codebase
(macro-events-agent and nba-sportsbook-agent).  The Python sources are embedded
shallowly: strings are lists of characters, JSON values are an inductive type,
Python exceptions are `Except` errors, and the mutable shared state objects are
records passed explicitly.  The claims under study concern the pick-next loop of
the macro-events graph, the JSON response parsers of the agents, the tool
dispatch of the NBA data agent, and the bounded think/decide/act recursion of
the iterative agents.
-/

/-! ## Python string primitives

Python `str.strip()` (whitespace variant and the `strip('`')` backtick variant)
is modelled on `List Char`.  Only ASCII whitespace is modelled; the exotic
Unicode whitespace Python also strips never appears in the inputs at issue. -/

/-- Characters stripped by Python `str.strip()` (ASCII subset). -/
def isPyWs (c : Char) : Bool :=
  c = ' ' || c = '\t' || c = '\n' || c = '\r' || c = Char.ofNat 11 || c = Char.ofNat 12

/-- The backtick character, written via its code point. -/
def backtickChar : Char := Char.ofNat 96

/-- Test for a backtick. -/
def isTick (c : Char) : Bool := c = backtickChar

/-- Drop elements satisfying `p` from the right end. -/
def dropRightWhile (p : Char → Bool) (l : List Char) : List Char :=
  ((l.reverse).dropWhile p).reverse

/-- Python `s.strip()` (ASCII whitespace). -/
def pyStrip (l : List Char) : List Char :=
  dropRightWhile isPyWs (l.dropWhile isPyWs)

/-- Python `s.strip('`')`. -/
def stripTicks (l : List Char) : List Char :=
  dropRightWhile isTick (l.dropWhile isTick)

/-- Convert a Lean string literal to the character-list representation. -/
def strL (s : String) : List Char := s.toList

/-- Convert a Lean string literal to a code-point list (used for JSON string
content and dictionary keys). -/
def codesL (s : String) : List Nat := s.toList.map Char.toNat

/-- Shared response cleanup used by every agent parser in both repositories:
`response.strip().strip('`').strip()`, then if the result starts with `json`
drop those four characters and strip again.  (`EventsAgent.parse_upcoming_events`,
`SearchAgent.parse_top_urls`, `SummarizerAgent.parse_summary`,
`MetadataAgent.parse_game_details`, `DataAgent.decide`, `AnalysisAgent.decide`
all contain this identical sequence.) -/
def pyCleanup (l : List Char) : List Char :=
  let s3 := pyStrip (stripTicks (pyStrip l))
  if s3.take 4 = ['j', 's', 'o', 'n'] then pyStrip (s3.drop 4) else s3

/-- Wrap a raw text in triple-backtick code fences with a leading `json`
language tag (the shape the prompts request from the LLM). -/
def fenceJson (t : List Char) : List Char :=
  [backtickChar, backtickChar, backtickChar, 'j', 's', 'o', 'n', '\n']
    ++ t ++ ['\n', backtickChar, backtickChar, backtickChar]

/-! ## JSON values and Python `json.loads`

The model follows CPython's pure-Python scanner: code-fence handling is the
caller's job, whitespace is ` \t\n\r`, numbers follow the scanner's regular
expression and are kept as lexemes, the constants `NaN`, `Infinity` and
`-Infinity` are accepted, and the `strict` flag controls only whether raw
control characters (code points below 0x20) inside string literals are
rejected.  String content is a list of code points so that lone surrogates from
`\u` escapes are representable. -/

/-- A parsed JSON value as Python's `json.loads` produces it.  Object items keep
their textual order; a duplicate key is resolved at lookup time by taking the
last occurrence, matching `dict(pairs)`. -/
inductive JValue where
  | null
  | bool (b : Bool)
  | num (lex : List Char)
  | nan
  | inf
  | ninf
  | str (cs : List Nat)
  | arr (elems : List JValue)
  | obj (items : List (List Nat × JValue))

/-- JSON whitespace (` \t\n\r`), as skipped by the CPython scanner. -/
def skipJWs (l : List Char) : List Char :=
  l.dropWhile (fun c => c = ' ' || c = '\t' || c = '\n' || c = '\r')

/-- Value of a hexadecimal digit. -/
def hexVal (c : Char) : Option Nat :=
  if c.isDigit then some (c.toNat - 48)
  else if 97 ≤ c.toNat && c.toNat ≤ 102 then some (c.toNat - 87)
  else if 65 ≤ c.toNat && c.toNat ≤ 70 then some (c.toNat - 55)
  else none

/-- Read exactly four hexadecimal digits (`\uXXXX`). -/
def parseHex4 : List Char → Except Unit (Nat × List Char)
  | a :: b :: c :: d :: rest =>
    match hexVal a, hexVal b, hexVal c, hexVal d with
    | some x, some y, some z, some w => .ok (((x * 16 + y) * 16 + z) * 16 + w, rest)
    | _, _, _, _ => .error ()
  | _ => .error ()

/-- Code point produced by a simple backslash escape, if the escape is legal. -/
def escCode (c : Char) : Option Nat :=
  if c.toNat = 34 then some 34
  else if c.toNat = 92 then some 92
  else if c = '/' then some 47
  else if c = 'b' then some 8
  else if c = 'f' then some 12
  else if c = 'n' then some 10
  else if c = 'r' then some 13
  else if c = 't' then some 9
  else none

/-- Scan a JSON string body after the opening quote, as CPython's
`py_scanstring` does: a quote ends it, a backslash starts an escape (with
surrogate-pair combination for `\u` escapes), and an unescaped control
character is an error exactly when `strict` is set. -/
def scanString (strict : Bool) : Nat → List Char → Except Unit (List Nat × List Char)
  | 0, _ => .error ()
  | _, [] => .error ()
  | fuel + 1, c :: rest =>
    if c.toNat = 34 then .ok ([], rest)
    else if c.toNat = 92 then
      match rest with
      | [] => .error ()
      | e :: rest2 =>
        if e = 'u' then
          match parseHex4 rest2 with
          | .error _ => .error ()
          | .ok (n, rest3) =>
            if 0xD800 ≤ n ∧ n ≤ 0xDBFF then
              match rest3 with
              | c1 :: c2 :: rest4 =>
                if c1.toNat = 92 ∧ c2 = 'u' then
                  match parseHex4 rest4 with
                  | .error _ => .error ()
                  | .ok (m, rest5) =>
                    if 0xDC00 ≤ m ∧ m ≤ 0xDFFF then
                      (scanString strict fuel rest5).map
                        (fun p => ((0x10000 + (n - 0xD800) * 1024 + (m - 0xDC00)) :: p.1, p.2))
                    else
                      (scanString strict fuel rest3).map (fun p => (n :: p.1, p.2))
                else (scanString strict fuel rest3).map (fun p => (n :: p.1, p.2))
              | _ => (scanString strict fuel rest3).map (fun p => (n :: p.1, p.2))
            else (scanString strict fuel rest3).map (fun p => (n :: p.1, p.2))
        else
          match escCode e with
          | some n => (scanString strict fuel rest2).map (fun p => (n :: p.1, p.2))
          | none => .error ()
    else if c.toNat < 32 && strict then .error ()
    else (scanString strict fuel rest).map (fun p => (c.toNat :: p.1, p.2))

/-- Optional fraction part of a number lexeme (`\.\d+`); consumed only when at
least one digit follows the dot, mirroring the scanner's regular expression. -/
def fracPart (l : List Char) : List Char × List Char :=
  match l with
  | '.' :: r =>
    let ds := r.takeWhile Char.isDigit
    if ds = [] then ([], l) else ('.' :: ds, r.dropWhile Char.isDigit)
  | _ => ([], l)

/-- Optional exponent part of a number lexeme (`[eE][-+]?\d+`); consumed only
when at least one digit follows. -/
def expPart (l : List Char) : List Char × List Char :=
  match l with
  | e :: rest =>
    if e = 'e' ∨ e = 'E' then
      let (sgn, rest2) :=
        match rest with
        | s :: r2 => if s = '+' ∨ s = '-' then ([s], r2) else (([] : List Char), rest)
        | [] => ([], rest)
      let ds := rest2.takeWhile Char.isDigit
      if ds = [] then ([], l) else (e :: (sgn ++ ds), rest2.dropWhile Char.isDigit)
    else ([], l)
  | [] => ([], l)

/-- Number token per the scanner's `NUMBER_RE`:
`(-?(?:0|[1-9]\d*))(\.\d+)?([eE][-+]?\d+)?`.  The matched lexeme is kept
verbatim. -/
def parseNumber (l : List Char) : Except Unit (JValue × List Char) :=
  let (sign, l1) :=
    match l with
    | c :: r => if c = '-' then (['-'], r) else (([] : List Char), l)
    | [] => ([], l)
  match l1 with
  | [] => .error ()
  | d :: r =>
    if d = '0' then
      let (f, r2) := fracPart r
      let (e, r3) := expPart r2
      .ok (.num (sign ++ ['0'] ++ f ++ e), r3)
    else if d.isDigit then
      let ds := r.takeWhile Char.isDigit
      let r1 := r.dropWhile Char.isDigit
      let (f, r2) := fracPart r1
      let (e, r3) := expPart r2
      .ok (.num (sign ++ (d :: ds) ++ f ++ e), r3)
    else .error ()

mutual

/-- Scan one JSON value starting exactly at the first character (callers skip
whitespace), as CPython's `scan_once`. -/
def scanValue (strict : Bool) : Nat → List Char → Except Unit (JValue × List Char)
  | 0, _ => .error ()
  | fuel + 1, l =>
    match l with
    | [] => .error ()
    | c :: rest =>
      if c.toNat = 34 then
        (scanString strict (rest.length + 1) rest).map (fun p => (.str p.1, p.2))
      else if c = '{' then scanObjStart strict fuel (skipJWs rest)
      else if c = '[' then scanArrStart strict fuel (skipJWs rest)
      else if c = 't' then
        match rest with
        | 'r' :: 'u' :: 'e' :: r => .ok (.bool true, r)
        | _ => .error ()
      else if c = 'f' then
        match rest with
        | 'a' :: 'l' :: 's' :: 'e' :: r => .ok (.bool false, r)
        | _ => .error ()
      else if c = 'n' then
        match rest with
        | 'u' :: 'l' :: 'l' :: r => .ok (.null, r)
        | _ => .error ()
      else if c = 'N' then
        match rest with
        | 'a' :: 'N' :: r => .ok (.nan, r)
        | _ => .error ()
      else if c = 'I' then
        match rest with
        | 'n' :: 'f' :: 'i' :: 'n' :: 'i' :: 't' :: 'y' :: r => .ok (.inf, r)
        | _ => .error ()
      else if c = '-' then
        match rest with
        | 'I' :: 'n' :: 'f' :: 'i' :: 'n' :: 'i' :: 't' :: 'y' :: r => .ok (.ninf, r)
        | _ => parseNumber l
      else parseNumber l

/-- Array scanning just after `[` with whitespace skipped: either an immediate
`]` or a first element followed by the delimiter loop. -/
def scanArrStart (strict : Bool) : Nat → List Char → Except Unit (JValue × List Char)
  | 0, _ => .error ()
  | fuel + 1, l =>
    match l with
    | ']' :: r => .ok (.arr [], r)
    | _ =>
      match scanValue strict fuel l with
      | .error e => .error e
      | .ok (v, r) => scanArrRest strict fuel [v] r

/-- Array delimiter loop: after each element, whitespace then `]` or `,`. -/
def scanArrRest (strict : Bool) : Nat → List JValue → List Char → Except Unit (JValue × List Char)
  | 0, _, _ => .error ()
  | fuel + 1, acc, l =>
    match skipJWs l with
    | ']' :: r => .ok (.arr acc.reverse, r)
    | ',' :: r =>
      match scanValue strict fuel (skipJWs r) with
      | .error e => .error e
      | .ok (v, r2) => scanArrRest strict fuel (v :: acc) r2
    | _ => .error ()

/-- Object scanning just after `{` with whitespace skipped: an immediate `}` or
a first key (which must open with a double quote). -/
def scanObjStart (strict : Bool) : Nat → List Char → Except Unit (JValue × List Char)
  | 0, _ => .error ()
  | fuel + 1, l =>
    match l with
    | '}' :: r => .ok (.obj [], r)
    | c :: r =>
      if c.toNat = 34 then scanObjPair strict fuel [] r
      else .error ()
    | [] => .error ()

/-- Scan one `"key" : value` pair, the key body starting at `l`, then continue
with the delimiter loop. -/
def scanObjPair (strict : Bool) : Nat → List (List Nat × JValue) → List Char →
    Except Unit (JValue × List Char)
  | 0, _, _ => .error ()
  | fuel + 1, acc, l =>
    match scanString strict (l.length + 1) l with
    | .error e => .error e
    | .ok (key, r1) =>
      match skipJWs r1 with
      | ':' :: r2 =>
        match scanValue strict fuel (skipJWs r2) with
        | .error e => .error e
        | .ok (v, r3) => scanObjRest strict fuel ((key, v) :: acc) r3
      | _ => .error ()

/-- Object delimiter loop: after each pair, whitespace then `}` or `,` and the
next double-quoted key. -/
def scanObjRest (strict : Bool) : Nat → List (List Nat × JValue) → List Char →
    Except Unit (JValue × List Char)
  | 0, _, _ => .error ()
  | fuel + 1, acc, l =>
    match skipJWs l with
    | '}' :: r => .ok (.obj acc.reverse, r)
    | ',' :: r =>
      match skipJWs r with
      | c :: r2 =>
        if c.toNat = 34 then scanObjPair strict fuel acc r2
        else .error ()
      | [] => .error ()
    | _ => .error ()

end

/-- Python `json.loads(text, strict=strict)`: skip leading whitespace, scan one
value, and reject trailing non-whitespace ("Extra data").  The fuel bounds
nesting depth plus container arity; both are below the input length, so
`length + 2` can never be exhausted on a value the scanner accepts. -/
def jsonLoads (strict : Bool) (l : List Char) : Except Unit JValue :=
  let l1 := skipJWs l
  match scanValue strict (l1.length + 2) l1 with
  | .error _ => .error ()
  | .ok (v, rest) => if skipJWs rest = [] then .ok v else .error ()

/-! ## Python value semantics helpers

Lookup, membership, truthiness and iteration over parsed JSON values, with
Python's exception behavior rendered as `Except Unit`. -/

/-- Lookup in a parsed JSON object as a Python `dict` built by `dict(pairs)`:
the last occurrence of a duplicated key wins. -/
def lookupLast (items : List (List Nat × JValue)) (key : List Nat) : Option JValue :=
  (items.reverse.find? (fun p => decide (p.1 = key))).map Prod.snd

/-- Does `hay` start with `pat`? (code-point lists) -/
def startsWithCodes : List Nat → List Nat → Bool
  | _, [] => true
  | [], _ :: _ => false
  | h :: hs, p :: ps => h = p && startsWithCodes hs ps

/-- Python substring test `pat in hay` on strings. -/
def containsCodes (hay pat : List Nat) : Bool :=
  startsWithCodes hay pat ||
    match hay with
    | [] => false
    | _ :: t => containsCodes t pat

/-- Python `s.replace(pat, rep)` on code-point strings (all non-overlapping
occurrences, left to right). -/
def replaceCodes (s pat rep : List Nat) : List Nat :=
  match s with
  | [] => []
  | c :: t =>
    if h : pat ≠ [] ∧ startsWithCodes (c :: t) pat then
      rep ++ replaceCodes ((c :: t).drop pat.length) pat rep
    else
      c :: replaceCodes t pat rep
termination_by s.length
decreasing_by
  · have hp : 0 < pat.length := List.length_pos.mpr h.1
    simp only [List.length_drop, List.length_cons]
    omega
  · simp only [List.length_cons]
    omega

/-- Python truthiness of a JSON-derived value (`bool(x)`).  A number is falsy
exactly when its mantissa digits are all zero. -/
def pyTruthy : JValue → Bool
  | .null => false
  | .bool b => b
  | .num lex => !((lex.takeWhile (fun c => c ≠ 'e' ∧ c ≠ 'E')).filter Char.isDigit).all (· = '0')
  | .nan => true
  | .inf => true
  | .ninf => true
  | .str cs => !cs.isEmpty
  | .arr xs => !xs.isEmpty
  | .obj items => !items.isEmpty

/-- Python `key in v` for a parsed JSON value: key membership for a dict,
element equality for a list, substring test for a string, `TypeError` (an
exception) otherwise. -/
def pyContainsKey (v : JValue) (key : String) : Except Unit Bool :=
  match v with
  | .obj items => .ok (items.any (fun p => decide (p.1 = codesL key)))
  | .arr xs =>
    .ok (xs.any (fun x =>
      match x with
      | .str cs => decide (cs = codesL key)
      | _ => false))
  | .str cs => .ok (containsCodes cs (codesL key))
  | _ => .error ()

/-- Python `v[key]` for a string key: dict lookup (raising `KeyError` when
missing), `TypeError` on any non-dict value. -/
def pyGetItem (v : JValue) (key : String) : Except Unit JValue :=
  match v with
  | .obj items =>
    match lookupLast items (codesL key) with
    | some x => .ok x
    | none => .error ()
  | _ => .error ()

/-- Python iteration `for x in v`: list elements, dict keys, string characters;
`TypeError` otherwise. -/
def pyIterate (v : JValue) : Except Unit (List JValue) :=
  match v with
  | .arr xs => .ok xs
  | .obj items => .ok (items.map (fun p => .str p.1))
  | .str cs => .ok (cs.map (fun n => .str [n]))
  | _ => .error ()

/-- Display used when a parsed value lands in a Python f-string (`str(x)`).
Scalars are rendered exactly; containers are rendered in a simplified form
(Python's `repr`-based element quoting is not reproduced).  These strings feed
only log and trace lines that no claim inspects. -/
def pyDisplay : JValue → List Char
  | .null => strL "None"
  | .bool true => strL "True"
  | .bool false => strL "False"
  | .num lex => lex
  | .nan => strL "nan"
  | .inf => strL "inf"
  | .ninf => strL "-inf"
  | .str cs => cs.map Char.ofNat
  | .arr _ => strL "[...]"
  | .obj _ => strL "{...}"

/-- Python truthiness of an `Optional[str]` (`if not response`). -/
def pyTruthyOptStr (response : Option (List Char)) : Bool :=
  match response with
  | none => false
  | some s => s ≠ []

/-! ## macro-events-agent: shared state and the pick-next loop

From `src/macro-events-agent/state.py` and `main.py`.  `Event.name` holds
whatever JSON value the parsed `event_name` carried (the dataclass annotation
is unchecked); `Event.date` is a code-point string since `execute` calls
`.replace` on it. -/

/-- `state.SearchQueryResult`. -/
structure SearchQueryResult where
  title : List Nat
  link : List Nat
  snippet : List Nat
  scraped_content : Option (List Nat) := none
  is_top_result : Bool := false

/-- `state.Event`. -/
structure MEEvent where
  name : JValue
  date : List Nat
  summary : Option (List Char) := none
  search_query_results : List SearchQueryResult := []

/-- `state.GlobalState` of the macro-events workflow, with the dataclass
defaults (in particular `current_event_index = -1`). -/
structure MEGlobalState where
  upcoming_events : List MEEvent := []
  current_event : Option MEEvent := none
  current_event_index : Int := -1
  events_in_calendar : List MEEvent := []

/-- A freshly constructed `GlobalState()`. -/
def defaultMEGlobalState : MEGlobalState := {}

/-- Python list indexing with an `int` index: negative indices count from the
end; `none` is an `IndexError`. -/
def pyListIndex (l : List α) (i : Int) : Option α :=
  if 0 ≤ i then l.get? i.toNat
  else if (-i).toNat ≤ l.length then l.get? (l.length - (-i).toNat)
  else none

/-- The `should_continue` node of `main.py`: when `upcoming_events` is truthy
and `current_event_index < len(upcoming_events)`, select
`upcoming_events[current_event_index]` (Python indexing, so `-1` selects the
last element) and advance the cursor; otherwise clear `current_event`.  An
out-of-range negative index would be an uncaught `IndexError`. -/
def should_continue_node (s : MEGlobalState) : Except Unit MEGlobalState :=
  if s.upcoming_events.isEmpty = false ∧ s.current_event_index < (s.upcoming_events.length : Int) then
    match pyListIndex s.upcoming_events s.current_event_index with
    | some e =>
      .ok { s with current_event := some e, current_event_index := s.current_event_index + 1 }
    | none => .error ()
  else .ok { s with current_event := none }

/-- Branch taken by the conditional edge out of `should_continue`. -/
inductive MERoute where
  | continueBranch
  | endBranch

/-- The conditional-edge predicate of `main.py`:
`"continue" if x.upcoming_events and x.current_event is not None else "end"`. -/
def should_continue_route (s : MEGlobalState) : MERoute :=
  if s.upcoming_events.isEmpty = false ∧ s.current_event.isSome = true then .continueBranch
  else .endBranch

/-- Iterated application of the pick-next node. -/
def scnSteps (s : MEGlobalState) : Nat → Except Unit MEGlobalState
  | 0 => .ok s
  | n + 1 => (scnSteps s n).bind should_continue_node

/-! ## macro-events-agent: response parsers and single-shot agents -/

/-- `EventsAgent.parse_upcoming_events`: cleanup, then `json.loads(cleaned)` in
the default strict mode; any exception yields the empty list. -/
def parse_upcoming_events (response : List Char) : JValue :=
  match jsonLoads true (pyCleanup response) with
  | .ok v => v
  | .error _ => .arr []

/-- `SearchAgent.parse_top_urls`: cleanup, `json.loads(cleaned, strict=False)`,
then `parsed.get("top_urls", [])`; any exception (including the
`AttributeError` when the parse result is not a dict) yields the empty list. -/
def parse_top_urls (response : List Char) : JValue :=
  match jsonLoads false (pyCleanup response) with
  | .ok (.obj items) => (lookupLast items (codesL "top_urls")).getD (.arr [])
  | .ok _ => .arr []
  | .error _ => .arr []

/-- `SummarizerAgent.parse_summary`: cleanup then
`json.loads(cleaned, strict=False)`; the Python code returns the parsed value,
or the marker dict `{"error": e}` on failure, which is rendered here as the
`Except` error. -/
def parse_summary (response : List Char) : Except Unit JValue :=
  jsonLoads false (pyCleanup response)

/-- Join code-point strings with a separator. -/
def joinWithCodes (sep : List Char) (parts : List (List Char)) : List Char :=
  match parts with
  | [] => []
  | [p] => p
  | p :: rest => p ++ sep ++ joinWithCodes sep rest

/-- One `append_if_present(key, title)` step of
`SummarizerAgent.format_summary_for_calendar`: append the titled section when
the value is truthy (bulleted lines for a list value), then unconditionally
append a blank line. -/
def appendIfPresent (items : List (List Nat × JValue)) (key title : String)
    (parts : List (List Char)) : List (List Char) :=
  let withValue :=
    match lookupLast items (codesL key) with
    | some v =>
      if pyTruthy v then
        match v with
        | .arr xs =>
          parts ++ [strL ("**" ++ title ++ ":**\n")
            ++ joinWithCodes (strL "\n") (xs.map (fun x => strL "- " ++ pyDisplay x))]
        | _ => parts ++ [strL ("**" ++ title ++ ":**\n") ++ pyDisplay v]
      else parts
    | none => parts
  withValue ++ [strL "\n"]

/-- `SummarizerAgent.format_summary_for_calendar`.  The `Except` argument is
the `parse_summary` result (`.error` standing for the `{"error": e}` marker);
an `.error` result on the outside is an uncaught `TypeError`/`AttributeError`
(`"error" in summary` on a non-container, or `.get` on a non-dict). -/
def format_summary_for_calendar (summary : Except Unit JValue) : Except Unit (List Char) :=
  match summary with
  | .error _ => .ok (strL "Error generating summary.")
  | .ok v =>
    match pyContainsKey v "error" with
    | .error _ => .error ()
    | .ok true => .ok (strL "Error generating summary.")
    | .ok false =>
      match v with
      | .obj items =>
        let parts : List (List Char) := []
        let parts := appendIfPresent items "event_details" "Event Details" parts
        let parts := appendIfPresent items "forecast" "Forecast" parts
        let parts := appendIfPresent items "history" "Previous Report Recap" parts
        let parts := appendIfPresent items "significance" "Why This Matters" parts
        let parts := appendIfPresent items "latest_news" "Latest Developments" parts
        let parts := appendIfPresent items "etfs" "ETFs to Watch" parts
        let parts := appendIfPresent items "references" "References" parts
        .ok (pyStrip (joinWithCodes (strL "\n") parts))
      | _ => .error ()

/-- Build the `Event` list of `EventsAgent.execute` from the parse result: the
list comprehension reads `ue["event_name"]` and `ue["event_date"]` (a `KeyError`
or `TypeError` escapes uncaught) and strips `-04:00` / `-05:00` from the date
(an `AttributeError` when the date value is not a string). -/
def buildUpcomingEvents (v : JValue) : Except Unit (List MEEvent) := do
  let elems ← pyIterate v
  elems.mapM (fun e => do
    let nameV ← pyGetItem e "event_name"
    let dateV ← pyGetItem e "event_date"
    match dateV with
    | .str cs =>
      pure { name := nameV,
             date := replaceCodes (replaceCodes cs (codesL "-04:00") []) (codesL "-05:00") [],
             summary := none,
             search_query_results := [] }
    | _ => .error ())

/-- `EventsAgent.execute`, with the LLM gateway response passed in (`none`
models a failed call; the empty string is equally falsy in
`if not response:`).  On a falsy response the state is returned untouched. -/
def EventsAgent.execute (response : Option (List Char)) (s : MEGlobalState) :
    Except Unit MEGlobalState :=
  if ¬ pyTruthyOptStr response then .ok s
  else do
    let parsed := parse_upcoming_events (response.getD [])
    let evs ← buildUpcomingEvents parsed
    match evs with
    | e :: _ => .ok { s with upcoming_events := evs, current_event := some e }
    | [] => .ok { s with upcoming_events := [], current_event := none }

/-- The fixed summary text `SummarizerAgent.execute` writes when the LLM call
fails. -/
def summarizerNoResponseMsg : List Char :=
  strL "Error: No response from LLM during summary generation."

/-- `SummarizerAgent.execute`, with the LLM gateway response passed in.  When
`current_event` is unset (or its name falsy) the state is returned untouched;
when the LLM response is falsy the summary is set to the fixed error text; the
Python aliasing of `current_event` with its entry in `upcoming_events` is not
modelled (no claim observes it). -/
def SummarizerAgent.execute (response : Option (List Char)) (s : MEGlobalState) :
    Except Unit MEGlobalState :=
  match s.current_event with
  | none => .ok s
  | some ce =>
    if ¬ pyTruthy ce.name then .ok s
    else if ¬ pyTruthyOptStr response then
      .ok { s with current_event := some { ce with summary := some summarizerNoResponseMsg } }
    else do
      let txt ← format_summary_for_calendar (parse_summary (response.getD []))
      .ok { s with current_event := some { ce with summary := some txt } }

/-! ## nba-sportsbook-agent: shared state

From `src/nba-sportsbook-agent/state.py`.  `BetEvent` and the pandas
`DataFrame` payloads are cargo the claims only thread through state, so they
keep their identifying raw fields but not the market-index machinery. -/

/-- `state.NBATeamInfo`. -/
structure NBATeamInfo where
  nba_team_id : List Char
  nba_team_name : List Char

/-- `state.NBAPlayerInfo`. -/
structure NBAPlayerInfo where
  nba_player_id : List Char
  nba_player_name : List Char

/-- `state.TeamInfo` (metadata-resolver mapping); field values are whatever
JSON values the LLM supplied, since the dataclass annotations are unchecked. -/
structure TeamInfo where
  nba_team_id : JValue
  odds_team_name : JValue

/-- `state.PlayerInfo` (metadata-resolver mapping). -/
structure PlayerInfo where
  nba_player_id : JValue
  odds_player_name : JValue

/-- `state.GameInfo` (metadata-resolver mapping). -/
structure GameInfo where
  nba_game_id : JValue
  odds_game_id : JValue

/-- `state.GameDetails`. -/
structure GameDetails where
  game_info : GameInfo
  home_team_info : TeamInfo
  away_team_info : TeamInfo
  players_info : List PlayerInfo

/-- `state.BetEvent`, kept as its raw constructor fields; the bookmaker market
indexing is not modelled (no claim inspects it). -/
structure BetEvent where
  event_id : JValue
  home_team : JValue
  away_team : JValue
  bookmakers : JValue

/-- Opaque stand-in for a pandas `DataFrame` of player game logs (threaded
through state, never inspected by the claims). -/
structure DataFrame where
  rows : List (List (List Char))

/-- The per-game map `Dict[NBATeamInfo, List[NBAPlayerInfo]]`. -/
def TeamRoster := List (NBATeamInfo × List NBAPlayerInfo)

/-- `state.GlobalState` of the NBA workflow, with its dataclass defaults.
Python dicts are association lists here. -/
structure NBAGlobalState where
  user_query : List Char
  final_answer : Option JValue := none
  game_details : Option GameDetails := none
  upcoming_games : List (List Char × TeamRoster) := []
  player_stats : List (List Char × DataFrame) := []
  upcoming_bets : List (List Char × BetEvent) := []
  required_data_loaded : Bool := false

/-! ## nba-sportsbook-agent: MetadataAgent -/

/-- Keyword-expand a parsed JSON value into a two-field dataclass
(`Cls(**data[...])`): the value must be a dict whose key set is exactly the two
declared field names (a missing or extra key is a `TypeError`), duplicates
having already collapsed to the last occurrence. -/
def kwargs2 (k1 k2 : String) (v : JValue) : Except Unit (JValue × JValue) :=
  match v with
  | .obj items =>
    match lookupLast items (codesL k1), lookupLast items (codesL k2),
        items.all (fun p => decide (p.1 = codesL k1) || decide (p.1 = codesL k2)) with
    | some a, some b, true => .ok (a, b)
    | _, _, _ => .error ()
  | _ => .error ()

/-- `MetadataAgent.parse_game_details`: cleanup, lenient `json.loads`, then
construction of the `GameDetails` mapping.  Unlike the other three response
parsers there is no internal `try`: every failure (decode error, missing keys,
wrong shapes) is an exception raised to the caller. -/
def parse_game_details (response : List Char) : Except Unit GameDetails := do
  let answer ← jsonLoads false (pyCleanup response)
  match answer with
  | .obj items =>
    match lookupLast items (codesL "answer") with
    | none => .error ()
    | some data => do
      let giV ← pyGetItem data "game_info"
      let gi ← kwargs2 "nba_game_id" "odds_game_id" giV
      let hiV ← pyGetItem data "home_team_info"
      let hi ← kwargs2 "nba_team_id" "odds_team_name" hiV
      let aiV ← pyGetItem data "away_team_info"
      let ai ← kwargs2 "nba_team_id" "odds_team_name" aiV
      let playersV :=
        match data with
        | .obj ditems => (lookupLast ditems (codesL "players_info")).getD (.arr [])
        | _ => .arr []
      let pElems ← pyIterate playersV
      let players ← pElems.mapM (fun p => do
        let pi ← kwargs2 "nba_player_id" "odds_player_name" p
        pure (⟨pi.1, pi.2⟩ : PlayerInfo))
      pure ⟨⟨gi.1, gi.2⟩, ⟨hi.1, hi.2⟩, ⟨ai.1, ai.2⟩, players⟩
  | _ => .error ()

/-- The parse-and-assign step of `MetadataAgent.execute`: the `try` around
`parse_game_details` catches every exception and leaves `game_details`
untouched; on success the constructed mapping is stored. -/
def MetadataAgent.applyParse (response : List Char) (gs : NBAGlobalState) : NBAGlobalState :=
  match parse_game_details response with
  | .ok gd => { gs with game_details := some gd }
  | .error _ => gs

/-! ## nba-sportsbook-agent: tools

From `src/nba-sportsbook-agent/tools.py`.  The external NBA-stats and odds
clients are parameters; the loaders' own control flow (including their bare
`raise` statements on missing data) is translated. -/

/-- How `Tool.use` ends up calling the underlying function. -/
inductive CallForm where
  | noArgs
  | kwargs (items : List (List Nat × JValue))
  | positional (v : JValue)

/-- The values tools return: the games/bets pair, a stats dict, or anything
else (displayed verbatim in the observation). -/
inductive ToolVal where
  | tuple2 (games : List (List Char × TeamRoster)) (bets : List (List Char × BetEvent))
  | dict (stats : List (List Char × DataFrame))
  | text (s : List Char)

/-- Result of `Tool.use`: the function's value, or the textual error built in
the `except` clause.  `Tool.use` never raises. -/
inductive UseResult where
  | val (v : ToolVal)
  | errText (msg : List Char)

/-- `tools.Tool`: name, callable, description, declared input schema, output
description.  The callable may raise (`Except.error` carries `str(e)`). -/
structure PyTool where
  name : List Char
  func : CallForm → Except (List Char) ToolVal
  tool_description : List Char
  tool_inputs : List (List Nat × JValue)
  tool_outputs : List Char

/-- `Tool.use`: dispatch on the declared schema and the supplied input
(`func(**input)` for a dict with a non-empty schema, `func(input)` for any
other non-`None` input with a non-empty schema, `func()` otherwise), catching
every exception and returning `"Error in tool {name}: {e}"`. -/
def PyTool.callForm (t : PyTool) (input_data : Option JValue) : CallForm :=
  match input_data with
  | some (.obj items) => if !t.tool_inputs.isEmpty then .kwargs items else .noArgs
  | some v => if !t.tool_inputs.isEmpty then .positional v else .noArgs
  | none => .noArgs

/-- Body of `Tool.use` (see `PyTool.callForm` for the dispatch). -/
def PyTool.use (t : PyTool) (input_data : Option JValue) : UseResult :=
  match t.func (t.callForm input_data) with
  | .ok v => .val v
  | .error e => .errText (strL "Error in tool " ++ t.name ++ strL ": " ++ e)

/-- External collaborators of `load_upcoming_nba_games` (`NBAStatsAPI`): the
static team table, the upcoming-game rows, and per-team rosters. -/
structure NBAClient where
  teams : List (Int × List Char)
  upcoming : List (List Char × Int × Int)
  roster : Int → List (List Char × List Char)

/-- String form of an integer id (`str(team_id)`), digits only for the ids in
play. -/
def intToCodes (i : Int) : List Char := strL (toString i)

/-- Per-game processing of `load_upcoming_nba_games`: for the home and away
team of each game row, resolve the team name from the static table (a bare
`raise` when absent), fetch the roster (a bare `raise` when empty), and store
the players under the team info. -/
def loadGamesRow (client : NBAClient) (row : List Char × Int × Int) :
    Except (List Char) (List Char × TeamRoster) := do
  let (game_id, home_id, away_id) := row
  let processTeam : Int → Except (List Char) (NBATeamInfo × List NBAPlayerInfo) := fun tid => do
    match (client.teams.find? (fun p => decide (p.1 = tid))).map Prod.snd with
    | none => .error (strL "No active exception to re-raise")
    | some team_name => do
      let rosterRows := client.roster tid
      if rosterRows.isEmpty then .error (strL "No active exception to re-raise")
      else
        pure (⟨intToCodes tid, team_name⟩,
          rosterRows.map (fun pr => ⟨pr.1, pr.2⟩))
  let home ← processTeam home_id
  let away ← processTeam away_id
  pure (game_id, [home, away])

/-- `tools.load_upcoming_nba_games`: empty static team data is a bare `raise`;
no upcoming games yields the empty map; otherwise each game row is processed
(any inner failure raising out of the function). -/
def load_upcoming_nba_games (client : NBAClient) :
    Except (List Char) (List (List Char × TeamRoster)) := do
  if client.teams.isEmpty then .error (strL "No active exception to re-raise")
  else if client.upcoming.isEmpty then pure []
  else client.upcoming.mapM (loadGamesRow client)

/-- Python `int(s)` on a code-point string: optional surrounding whitespace and
sign, then at least one digit; anything else is a `ValueError`. -/
def pyIntOfCodes (cs : List Nat) : Except (List Char) Int :=
  let chars := cs.map Char.ofNat
  let trimmed := (chars.dropWhile isPyWs).reverse.dropWhile isPyWs |>.reverse
  let (neg, digits) :=
    match trimmed with
    | '-' :: r => (true, r)
    | '+' :: r => (false, r)
    | _ => (false, trimmed)
  if digits ≠ [] ∧ digits.all Char.isDigit then
    let n : Nat := digits.foldl (fun acc c => acc * 10 + (c.toNat - 48)) 0
    .ok (if neg then -(n : Int) else (n : Int))
  else .error (strL "invalid literal for int()")

/-- External collaborator of `load_players_stats`: per-player game-log rows. -/
structure StatsClient where
  playerStats : Int → List (List (List Char))

/-- `tools.load_players_stats(player_ids)`: each id is converted with `int`
(`ValueError` re-raised), its stats fetched (empty stats a bare `raise`), and
stored under the original string id.  The rate-limit sleep has no observable
effect here. -/
def load_players_stats (client : StatsClient) (player_ids : List JValue) :
    Except (List Char) (List (List Char × DataFrame)) :=
  player_ids.foldlM (fun acc pid => do
    let pidCodes ←
      match pid with
      | .str cs => pure cs
      | _ => Except.error (strL "int() argument type error")
    let pidInt ← pyIntOfCodes pidCodes
    let statRows := client.playerStats pidInt
    if statRows.isEmpty then Except.error (strL "No active exception to re-raise")
    else pure (acc ++ [(pidCodes.map Char.ofNat, ⟨statRows⟩)])) []

/-- The callable behind the games-and-bets tool:
`load_upcoming_nba_games_and_bets` calls the games loader and the bets loader
(the latter involving the on-disk cache and odds API, abstracted as a
parameter) and returns the pair.  The declared schema is empty, so only the
no-argument call reaches the body; Python would accept a stray
`days_ahead` keyword, which cannot arise through `Tool.use` here. -/
def load_upcoming_nba_games_and_bets (client : NBAClient)
    (betsLoader : Except (List Char) (List (List Char × BetEvent))) :
    CallForm → Except (List Char) ToolVal := fun _ => do
  let games ← load_upcoming_nba_games client
  let bets ← betsLoader
  pure (.tuple2 games bets)

/-- The callable behind the player-stats tool: keyword call with exactly
`player_ids` reaches the body; any other call shape is an argument-binding
`TypeError` returned as the error (the iterable is a JSON value: list
elements, dict keys or string characters; otherwise `TypeError`). -/
def load_players_stats_callable (client : StatsClient) :
    CallForm → Except (List Char) ToolVal := fun call =>
  match call with
  | .kwargs items =>
    match lookupLast items (codesL "player_ids"),
        items.all (fun p => decide (p.1 = codesL "player_ids")) with
    | some v, true => do
      let ids ← match pyIterate v with
        | .ok ids => pure ids
        | .error _ => Except.error (strL "player_ids is not iterable")
      let stats ← load_players_stats client ids
      pure (.dict stats)
    | _, _ => .error (strL "unexpected keyword argument")
  | .positional v => do
    let ids ← match pyIterate v with
      | .ok ids => pure ids
      | .error _ => Except.error (strL "player_ids is not iterable")
    let stats ← load_players_stats client ids
    pure (.dict stats)
  | .noArgs => .error (strL "missing required argument player_ids")

/-- The `DataAgent.load_tools` registry: the two tools under their upper-case
keys, their schemas as in the source (`{}` for the games tool, a `player_ids`
example for the stats tool). -/
def dataAgentTools (client : NBAClient) (stats : StatsClient)
    (betsLoader : Except (List Char) (List (List Char × BetEvent))) :
    List (List Char × PyTool) :=
  [ (strL "LOAD_UPCOMING_NBA_GAMES_AND_BETS",
      { name := strL "load_upcoming_nba_games_and_bets",
        func := load_upcoming_nba_games_and_bets client betsLoader,
        tool_description := strL "Loads all upcoming NBA games with their team IDs, names, and player IDs, names; and sportsbook bets.",
        tool_inputs := [],
        tool_outputs := strL "(Dict[nba_game_id, Dict[NBATeamInfo, List[NBAPlayerInfo]]], Dict[bet_event_id, BetEvent])" }),
    (strL "LOAD_PLAYERS_STATS",
      { name := strL "load_players_stats",
        func := load_players_stats_callable stats,
        tool_inputs := [(codesL "player_ids",
          .arr [.str (codesL "player_id_1"), .str (codesL "player_id_2"),
                .str (codesL "player_id_n")])],
        tool_description := strL "Loads NBA players stats for a given list of player IDs.",
        tool_outputs := strL "Dict[str, PlayerStats]" }) ]

/-- Dictionary lookup in the tool registry (`self.tools.get(tool_name)`). -/
def lookupTool (tools : List (List Char × PyTool)) (name : List Char) : Option PyTool :=
  (tools.find? (fun p => decide (p.1 = name))).map Prod.snd

/-! ## nba-sportsbook-agent: DataAgent

From `src/nba-sportsbook-agent/agents/data_agent.py`.  The LLM gateway is an
oracle `env : Nat → List Char` giving the textual response of each think
iteration (`ask_llm` always returns a string, substituting
`"No response from LLM"` for `None`); the prompt rendering that feeds it is a
pure string build no claim references.  `llmCalls` is ghost instrumentation
counting `ask_llm` invocations. -/

/-- The pydantic `Message` record. -/
structure PyMessage where
  role : List Char
  content : List Char

/-- `DataAgent`'s mutable attributes (trace file content included so the
write-to-file side effect is visible). -/
structure DAState where
  messages : List PyMessage := []
  traceFile : List (List Char) := []
  current_iteration : Nat := 0
  llmCalls : Nat := 0

/-- `DataAgent.trace`: a non-`system` role is appended to the message history;
every call appends `"{role}: {content}\n"` to the trace file. -/
def daTrace (role content : List Char) (da : DAState) : DAState :=
  { da with
    messages :=
      if role = strL "system" then da.messages else da.messages ++ [⟨role, content⟩],
    traceFile := da.traceFile ++ [role ++ strL ": " ++ content ++ strL "\n"] }

/-- The banner `think` writes to the trace file at each iteration. -/
def iterHeader (n : Nat) : List Char :=
  strL "\n" ++ List.replicate 50 '=' ++ strL "\nIteration " ++ strL (toString n)
    ++ strL "\n" ++ List.replicate 50 '=' ++ strL "\n"

/-- Outcome classification of one `decide` call on an LLM response: a JSON
decode failure, any other exception (`TypeError`, `KeyError`,
`AttributeError`, or the explicit `ValueError("Invalid response format")`), an
answer, or a tool action. -/
inductive DecideStep where
  | parseErrorStep
  | shapeErrorStep
  | answerStep (v : JValue)
  | actStep (tool_name : List Char) (input : Option JValue)

/-- ASCII uppercase mapping (Python `.upper()` on the tool names in play). -/
def upperCodes (cs : List Nat) : List Nat :=
  cs.map (fun n => if 97 ≤ n ∧ n ≤ 122 then n - 32 else n)

/-- Classify `DataAgent.decide` on a response: cleanup and lenient decode; the
membership tests `"action" in parsed` / `"answer" in parsed` follow Python
semantics on every value shape, with their possible `TypeError` (and every
other exception of the block) landing in the generic `except` and hence in
`shapeErrorStep`; an action extracts the upper-cased tool name, and an input
equal to `None` or `{}` becomes a no-argument call. -/
def dataDecideOutcome (response : List Char) : DecideStep :=
  match jsonLoads false (pyCleanup response) with
  | .error _ => .parseErrorStep
  | .ok parsed =>
    match pyContainsKey parsed "action" with
    | .error _ => .shapeErrorStep
    | .ok true =>
      match pyGetItem parsed "action" with
      | .error _ => .shapeErrorStep
      | .ok action =>
        match pyGetItem action "name" with
        | .error _ => .shapeErrorStep
        | .ok nameV =>
          match nameV with
          | .str cs =>
            let tool_name := (upperCodes cs).map Char.ofNat
            let input :=
              match action with
              | .obj aItems => lookupLast aItems (codesL "input")
              | _ => none
            match input with
            | none => .actStep tool_name none
            | some .null => .actStep tool_name none
            | some (.obj []) => .actStep tool_name none
            | some v => .actStep tool_name (some v)
          | _ => .shapeErrorStep
    | .ok false =>
      match pyContainsKey parsed "answer" with
      | .error _ => .shapeErrorStep
      | .ok true =>
        match pyGetItem parsed "answer" with
        | .error _ => .shapeErrorStep
        | .ok v => .answerStep v
      | .ok false => .shapeErrorStep

/-- What lands in the observation f-string when the tool result was not
replaced by a success message: the caught error text verbatim, or a simplified
rendering of a raw value (no claim inspects the latter). -/
def displayUse : UseResult → List Char
  | .errText msg => msg
  | .val (.text s) => s
  | .val (.tuple2 _ _) => strL "(...)"
  | .val (.dict _) => strL "\x7b...\x7d"

/-- Python dict assignment `m[k] = v` on an association list: update in place
or append, preserving insertion order. -/
def updateAssoc (m : List (List Char × DataFrame)) (kv : List Char × DataFrame) :
    List (List Char × DataFrame) :=
  if m.any (fun p => decide (p.1 = kv.1)) then
    m.map (fun p => if p.1 = kv.1 then (p.1, kv.2) else p)
  else m ++ [kv]

/-- Observable effects of one `DataAgent.act` call, short of its tail call back
into `think`: the messages appended to the history, the lines appended to the
trace file, and the updated shared state.  A found tool is invoked through
`Tool.use` (which never raises); the games/bets tuple and the stats dict are
merged into state and replaced by success text; an unknown tool writes only the
`system` trace-file line. -/
structure ActOutcome where
  newMessages : List PyMessage
  newTraceLines : List (List Char)
  gsAfter : NBAGlobalState

/-- Effects of `DataAgent.act` (see `ActOutcome`). -/
def dataActEffects (tools : List (List Char × PyTool)) (tool_name : List Char)
    (input : Option JValue) (gs : NBAGlobalState) : ActOutcome :=
  match lookupTool tools tool_name with
  | some tool =>
    let result := tool.use input
    let merged : NBAGlobalState × List Char :=
      if tool_name = strL "LOAD_UPCOMING_NBA_GAMES_AND_BETS" then
        match result with
        | .val (.tuple2 g b) =>
          ({ gs with upcoming_games := g, upcoming_bets := b },
            strL "Successfully loaded upcoming NBA games along with the bets into state.")
        | _ => (gs, displayUse result)
      else if tool_name = strL "LOAD_PLAYERS_STATS" then
        match result with
        | .val (.dict st) =>
          ({ gs with player_stats := st.foldl updateAssoc gs.player_stats },
            strL "Successfully loaded player stats for "
              ++ joinWithCodes (strL ",") (st.map Prod.fst))
        | _ => (gs, displayUse result)
      else (gs, displayUse result)
    let observation := strL "Observation from " ++ tool_name ++ strL ": " ++ merged.2
    { newMessages := [⟨strL "system", observation⟩],
      newTraceLines := [strL "system" ++ strL ": " ++ observation ++ strL "\n"],
      gsAfter := merged.1 }
  | none =>
    { newMessages := [],
      newTraceLines := [strL "system" ++ strL ": " ++ strL "Error: Tool " ++ tool_name
        ++ strL " not found" ++ strL "\n"],
      gsAfter := gs }

/-- The recovery line `decide` traces on a `json.JSONDecodeError` (the embedded
`str(e)` text is elided). -/
def dataParseErrMsg : List Char :=
  strL "I encountered an error in processing. Error: ... Let me try again."

/-- The recovery line `decide` traces on any other exception. -/
def dataShapeErrMsg : List Char :=
  strL "I encountered an unexpected error. Error: ... Let me try a different approach."

/-- `DataAgent.think` together with the `decide`/`act` calls it makes: the
iteration counter is incremented and the banner written before the budget
check; past the budget the call returns at once; otherwise the LLM is asked,
the response classified, and the agent either records the final answer
(setting `required_data_loaded`) or re-enters `think` after the recovery or
tool step.  The recursion is well-founded because every entry increments
`current_iteration` and recursion happens only below `max_iterations`. -/
def dataThink (tools : List (List Char × PyTool)) (max_iterations : Nat)
    (env : Nat → List Char) (da : DAState) (gs : NBAGlobalState) :
    DAState × NBAGlobalState :=
  let c := da.current_iteration + 1
  let da1 : DAState := { da with current_iteration := c, traceFile := da.traceFile ++ [iterHeader c] }
  if h : c > max_iterations then (da1, gs)
  else
    let response := env c
    let da2 := daTrace (strL "assistant") (strL "Thought: " ++ response)
      { da1 with llmCalls := da1.llmCalls + 1 }
    match dataDecideOutcome response with
    | .parseErrorStep =>
      dataThink tools max_iterations env (daTrace (strL "assistant") dataParseErrMsg da2) gs
    | .shapeErrorStep =>
      dataThink tools max_iterations env (daTrace (strL "assistant") dataShapeErrMsg da2) gs
    | .answerStep v =>
      (daTrace (strL "assistant") (strL "Final Answer: " ++ pyDisplay v) da2,
        { gs with required_data_loaded := true })
    | .actStep name input =>
      let da3 := daTrace (strL "assistant") (strL "Action: Using " ++ name ++ strL " tool") da2
      let eff := dataActEffects tools name input gs
      dataThink tools max_iterations env
        { da3 with messages := da3.messages ++ eff.newMessages,
                   traceFile := da3.traceFile ++ eff.newTraceLines }
        eff.gsAfter
termination_by max_iterations + 1 - da.current_iteration
decreasing_by
  all_goals simp [daTrace]
  all_goals omega

/-- `DataAgent.__init__`'s default iteration budget. -/
def DataAgent.defaultMaxIterations : Nat := 5

/-- `DataAgent.execute`: trace the user query and start thinking. -/
def DataAgent.execute (tools : List (List Char × PyTool)) (max_iterations : Nat)
    (env : Nat → List Char) (da : DAState) (gs : NBAGlobalState) :
    DAState × NBAGlobalState :=
  dataThink tools max_iterations env (daTrace (strL "user") gs.user_query da) gs

/-! ## nba-sportsbook-agent: AnalysisAgent

From `src/nba-sportsbook-agent/agents/analysis_agent.py`.  Its `trace` writes
only to the trace file (nothing ever lands in `self.messages`), and its
`decide` knows only the answer shape. -/

/-- `AnalysisAgent`'s mutable attributes. -/
structure ANState where
  messages : List PyMessage := []
  traceFile : List (List Char) := []
  current_iteration : Nat := 0
  llmCalls : Nat := 0

/-- `AnalysisAgent.trace`: file only. -/
def anTrace (role content : List Char) (an : ANState) : ANState :=
  { an with traceFile := an.traceFile ++ [role ++ strL ": " ++ content ++ strL "\n"] }

/-- Classify `AnalysisAgent.decide`: lenient decode, then `"answer" in parsed`
(with its `TypeError` possibilities) and the `ValueError` on any other shape. -/
def analysisDecideOutcome (response : List Char) : DecideStep :=
  match jsonLoads false (pyCleanup response) with
  | .error _ => .parseErrorStep
  | .ok parsed =>
    match pyContainsKey parsed "answer" with
    | .error _ => .shapeErrorStep
    | .ok true =>
      match pyGetItem parsed "answer" with
      | .error _ => .shapeErrorStep
      | .ok v => .answerStep v
    | .ok false => .shapeErrorStep

/-- `AnalysisAgent.think` with its `decide` inlined: same banner, increment and
budget check as the data agent; an answer stores `final_answer` on the shared
state; every failure re-enters `think`. -/
def analysisThink (max_iterations : Nat) (env : Nat → List Char) (an : ANState)
    (gs : NBAGlobalState) : ANState × NBAGlobalState :=
  let c := an.current_iteration + 1
  let an1 : ANState := { an with current_iteration := c, traceFile := an.traceFile ++ [iterHeader c] }
  if h : c > max_iterations then (an1, gs)
  else
    let response := env c
    let an2 := anTrace (strL "assistant") (strL "Thought: " ++ response)
      { an1 with llmCalls := an1.llmCalls + 1 }
    match analysisDecideOutcome response with
    | .answerStep v =>
      (anTrace (strL "assistant") (strL "Final Answer: " ++ pyDisplay v) an2,
        { gs with final_answer := some v })
    | .parseErrorStep =>
      analysisThink max_iterations env (anTrace (strL "assistant") dataParseErrMsg an2) gs
    | _ =>
      analysisThink max_iterations env (anTrace (strL "assistant") dataShapeErrMsg an2) gs
termination_by max_iterations + 1 - an.current_iteration
decreasing_by
  all_goals simp [anTrace]
  all_goals omega

/-- `AnalysisAgent.__init__`'s iteration budget (`self.max_iterations = 2`). -/
def AnalysisAgent.maxIterations : Nat := 2

/-- `AnalysisAgent.execute`: trace the user query and start thinking. -/
def AnalysisAgent.execute (max_iterations : Nat) (env : Nat → List Char)
    (an : ANState) (gs : NBAGlobalState) : ANState × NBAGlobalState :=
  analysisThink max_iterations env (anTrace (strL "user") gs.user_query an) gs

/-! ## Concrete sample inputs used by witnesses and counterexamples -/

/-- A sample event. -/
def evA : MEEvent := { name := .str (codesL "CPI release"), date := codesL "2025-05-30" }

/-- Another sample event. -/
def evB : MEEvent := { name := .str (codesL "FOMC minutes"), date := codesL "2025-05-28" }

/-- An NBA-stats client whose static team table is empty, making the games
loader raise. -/
def nbaClientNoTeams : NBAClient := { teams := [], upcoming := [], roster := fun _ => [] }

/-- A stats client with one game-log row per player. -/
def statsClientOk : StatsClient := { playerStats := fun _ => [[strL "row"]] }

/-- A tool registry whose games loader fails (empty team table) and whose bets
loader succeeds trivially. -/
def toolsWithFailingGames : List (List Char × PyTool) :=
  dataAgentTools nbaClientNoTeams statsClientOk (.ok [])

/-- The games-and-bets tool as registered in `toolsWithFailingGames`. -/
def gamesToolSample : PyTool :=
  (lookupTool toolsWithFailingGames (strL "LOAD_UPCOMING_NBA_GAMES_AND_BETS")).getD
    { name := [], func := fun _ => .error [], tool_description := [],
      tool_inputs := [], tool_outputs := [] }

/-- An LLM oracle whose first response requests an unregistered tool and whose
second response declares the data ready. -/
def envUnknownThenAnswer : Nat → List Char := fun n =>
  if n = 1 then
    strL "\x7b\"thought\": \"t\", \"action\": \x7b\"name\": \"bogus_tool\", \"input\": \x7b\x7d\x7d\x7d"
  else strL "\x7b\"thought\": \"t\", \"answer\": \"Data is ready.\"\x7d"

/-- An LLM oracle that always answers with unparseable text. -/
def envJunk : Nat → List Char := fun _ => strL "not json at all"

/-- A minimal NBA shared state. -/
def gsSample : NBAGlobalState := { user_query := strL "q" }

/-- An LLM response whose only defect is raw newline bytes inside JSON string
values (otherwise well-formed JSON with `top_urls` and `answer` keys). -/
def ctlDefectInput : List Char :=
  strL "\x7b\"top_urls\": [\"u\nv\"], \"answer\": \"ok\nready\"\x7d"

/-- The value the lenient decoder produces for `ctlDefectInput`. -/
def ctlDefectValue : JValue :=
  .obj [(codesL "top_urls", .arr [.str (codesL "u\nv")]),
        (codesL "answer", .str (codesL "ok\nready"))]

/-! ## Lemmas about stripping and the cleanup of fenced text -/

theorem dropRightWhile_eq_nil_iff (p : Char → Bool) (l : List Char) :
    dropRightWhile p l = [] ↔ ∀ x ∈ l, p x := by
  unfold dropRightWhile
  rw [List.reverse_eq_nil_iff, List.dropWhile_eq_nil_iff]
  constructor
  · intro h x hx
    exact h x (List.mem_reverse.mpr hx)
  · intro h x hx
    exact h x (List.mem_reverse.mp hx)

theorem dropRightWhile_append_singleton_pos (p : Char → Bool) (c : Char) (l : List Char)
    (hc : p c = true) : dropRightWhile p (l ++ [c]) = dropRightWhile p l := by
  unfold dropRightWhile
  rw [List.reverse_append]
  simp [List.dropWhile_cons, hc]

theorem dropRightWhile_append_singleton_neg (p : Char → Bool) (c : Char) (l : List Char)
    (hc : p c = false) : dropRightWhile p (l ++ [c]) = l ++ [c] := by
  unfold dropRightWhile
  rw [List.reverse_append]
  simp [List.dropWhile_cons, hc]

theorem dropRightWhile_cons (p : Char → Bool) (a : Char) (l : List Char) :
    dropRightWhile p (a :: l) =
      if dropRightWhile p l = [] then (if p a then [] else [a])
      else a :: dropRightWhile p l := by
  unfold dropRightWhile
  rw [List.reverse_cons, List.dropWhile_append]
  cases hrev : List.dropWhile p l.reverse with
  | nil =>
    cases hpa : p a <;> simp [List.dropWhile_cons, hpa]
  | cons x xs =>
    simp

theorem dropRightWhile_append (p : Char → Bool) (l1 l2 : List Char) :
    dropRightWhile p (l1 ++ l2) =
      if dropRightWhile p l2 = [] then dropRightWhile p l1
      else l1 ++ dropRightWhile p l2 := by
  induction l2 generalizing l1 with
  | nil => simp [dropRightWhile]
  | cons a t ih =>
    rw [show l1 ++ a :: t = (l1 ++ [a]) ++ t by simp, ih (l1 ++ [a]),
      dropRightWhile_cons p a t]
    by_cases hD : dropRightWhile p t = []
    · cases hpa : p a
      · simp [hD, hpa, dropRightWhile_append_singleton_neg p a l1 hpa]
      · simp [hD, hpa, dropRightWhile_append_singleton_pos p a l1 hpa]
    · simp [hD]

theorem dropRightWhile_idem (p : Char → Bool) (l : List Char) :
    dropRightWhile p (dropRightWhile p l) = dropRightWhile p l := by
  unfold dropRightWhile
  rw [List.reverse_reverse, List.dropWhile_idempotent]

theorem dropWhile_dropRightWhile_comm (p : Char → Bool) (l : List Char) :
    List.dropWhile p (dropRightWhile p l) = dropRightWhile p (List.dropWhile p l) := by
  induction l using List.reverseRecOn with
  | nil => simp [dropRightWhile]
  | append_singleton t a ih =>
    cases hpa : p a
    · rw [dropRightWhile_append_singleton_neg p a t hpa, List.dropWhile_append]
      cases hdw : List.dropWhile p t with
      | nil => simp [dropRightWhile, List.dropWhile_cons, hpa]
      | cons x xs =>
        rw [if_neg (by simp), dropRightWhile_append_singleton_neg p a (x :: xs) hpa]
    · rw [dropRightWhile_append_singleton_pos p a t hpa, ih, List.dropWhile_append]
      cases hdw : List.dropWhile p t with
      | nil => simp [dropRightWhile, List.dropWhile_cons, hpa]
      | cons x xs =>
        rw [if_neg (by simp), dropRightWhile_append_singleton_pos p a (x :: xs) hpa]

/-- Cleanup of a fenced text: the whitespace strip leaves the fence alone, the
backtick strip removes exactly the two fences, and dropping the `json` tag and
stripping again leaves exactly the whitespace-trimmed payload. -/
theorem cleanup_fence (t : List Char) : pyCleanup (fenceJson t) = pyStrip t := by
  have e2 : List.dropWhile isPyWs (fenceJson t) = fenceJson t := by
    rw [show fenceJson t = backtickChar :: ([backtickChar, backtickChar, 'j', 's', 'o', 'n', '\n']
        ++ t ++ ['\n', backtickChar, backtickChar, backtickChar]) by simp [fenceJson]]
    rw [List.dropWhile_cons]
    simp [show isPyWs backtickChar = false by decide]
  have e3 : dropRightWhile isPyWs (fenceJson t) = fenceJson t := by
    unfold fenceJson
    rw [dropRightWhile_append isPyWs _ ['\n', backtickChar, backtickChar, backtickChar]]
    rw [show dropRightWhile isPyWs ['\n', backtickChar, backtickChar, backtickChar]
        = ['\n', backtickChar, backtickChar, backtickChar] by decide]
    rw [if_neg (by decide)]
  have step1 : pyStrip (fenceJson t) = fenceJson t := by
    unfold pyStrip
    rw [e2, e3]
  have e4 : List.dropWhile isTick (fenceJson t)
      = (['j', 's', 'o', 'n', '\n'] ++ t) ++ ['\n', backtickChar, backtickChar, backtickChar] := by
    rw [show fenceJson t = backtickChar :: (backtickChar :: (backtickChar :: (('j' : Char)
        :: ((['s', 'o', 'n', '\n'] ++ t) ++ ['\n', backtickChar, backtickChar, backtickChar]))))
        by simp [fenceJson]]
    simp [List.dropWhile_cons, show isTick backtickChar = true by decide,
      show isTick 'j' = false by decide]
  have e5 : stripTicks (fenceJson t) = (['j', 's', 'o', 'n', '\n'] ++ t) ++ ['\n'] := by
    unfold stripTicks
    rw [e4, dropRightWhile_append isTick _ ['\n', backtickChar, backtickChar, backtickChar]]
    rw [show dropRightWhile isTick ['\n', backtickChar, backtickChar, backtickChar]
        = ['\n'] by decide]
    rw [if_neg (by decide)]
  have e7 : List.dropWhile isPyWs ((['j', 's', 'o', 'n', '\n'] ++ t) ++ ['\n'])
      = (['j', 's', 'o', 'n', '\n'] ++ t) ++ ['\n'] := by
    rw [show (['j', 's', 'o', 'n', '\n'] ++ t) ++ ['\n']
        = ('j' : Char) :: ((['s', 'o', 'n', '\n'] ++ t) ++ ['\n']) by simp]
    rw [List.dropWhile_cons]
    simp [show isPyWs 'j' = false by decide]
  have e9 : dropRightWhile isPyWs (['j', 's', 'o', 'n', '\n'] ++ t)
      = if dropRightWhile isPyWs t = [] then ['j', 's', 'o', 'n']
        else ['j', 's', 'o', 'n', '\n'] ++ dropRightWhile isPyWs t := by
    rw [dropRightWhile_append]
    rw [show dropRightWhile isPyWs ['j', 's', 'o', 'n', '\n'] = ['j', 's', 'o', 'n'] by decide]
  by_cases hD : dropRightWhile isPyWs t = []
  · have hs3 : pyStrip (stripTicks (pyStrip (fenceJson t))) = ['j', 's', 'o', 'n'] := by
      rw [step1, e5]
      unfold pyStrip
      rw [e7, dropRightWhile_append_singleton_pos isPyWs '\n' _ (by decide), e9, if_pos hD]
    simp only [pyCleanup, hs3]
    rw [if_pos (by decide)]
    rw [show List.drop 4 (['j', 's', 'o', 'n'] : List Char) = [] by decide]
    have ht : List.dropWhile isPyWs t = [] := by
      rw [List.dropWhile_eq_nil_iff]
      exact (dropRightWhile_eq_nil_iff isPyWs t).mp hD
    unfold pyStrip
    rw [ht]
    simp [dropRightWhile]
  · have hs3 : pyStrip (stripTicks (pyStrip (fenceJson t)))
        = ('j' : Char) :: ('s' : Char) :: ('o' : Char) :: ('n' : Char)
          :: ('\n' : Char) :: dropRightWhile isPyWs t := by
      rw [step1, e5]
      unfold pyStrip
      rw [e7, dropRightWhile_append_singleton_pos isPyWs '\n' _ (by decide), e9, if_neg hD]
      simp
    simp only [pyCleanup, hs3]
    rw [if_pos (by rfl)]
    rw [show List.drop 4 (('j' : Char) :: ('s' : Char) :: ('o' : Char) :: ('n' : Char)
        :: ('\n' : Char) :: dropRightWhile isPyWs t)
        = ('\n' : Char) :: dropRightWhile isPyWs t from rfl]
    unfold pyStrip
    rw [List.dropWhile_cons]
    rw [show isPyWs '\n' = true by decide]
    simp only [if_pos rfl, if_true]
    rw [dropWhile_dropRightWhile_comm, dropRightWhile_idem]

/-! ## Claim C4: fenced versus unfenced parsing -/

/-- C4 (amended).  The claim as stated fails: cleanup applied to the unfenced
text also strips stray backticks and a leading `json` tag from the payload
itself, while cleanup of the fenced text always yields exactly the trimmed
payload.  The round-trip equation `parse(fence(t)) = parse(t)` holds for every
raw text `t` on which cleanup is plain whitespace trimming (in particular for
every `t` that is valid JSON up to surrounding whitespace), for the parse
operations of EventsAgent and SearchAgent. -/
theorem c4_fence_roundtrip_of_clean (t : List Char) (h : pyCleanup t = pyStrip t) :
    parse_upcoming_events (fenceJson t) = parse_upcoming_events t ∧
    parse_top_urls (fenceJson t) = parse_top_urls t := by
  have hf := cleanup_fence t
  constructor
  · unfold parse_upcoming_events
    rw [hf, h]
  · unfold parse_top_urls
    rw [hf, h]

/-- Witness for C4 at the concrete payload `[1]`. -/
theorem c4_fence_roundtrip_witness :
    pyCleanup (strL "[1]") = pyStrip (strL "[1]") ∧
    parse_upcoming_events (fenceJson (strL "[1]")) = parse_upcoming_events (strL "[1]") := by
  have h : pyCleanup (strL "[1]") = pyStrip (strL "[1]") := by decide
  exact ⟨h, (c4_fence_roundtrip_of_clean (strL "[1]") h).1⟩

/-- Counterexample to C4 as stated: for the raw text `` `1` `` the unfenced
parse strips the backticks and decodes `1`, while the fenced parse decodes the
literal backticked text and fails back to the empty list; EventsAgent and
SearchAgent both give different structured values for the fenced and unfenced
forms. -/
theorem c4_counterexample :
    parse_upcoming_events (strL "`1`") = .num ['1'] ∧
    parse_upcoming_events (fenceJson (strL "`1`")) = .arr [] ∧
    JValue.num ['1'] ≠ JValue.arr [] ∧
    parse_top_urls (strL "`\x7b\"top_urls\": [\"u\"]\x7d`") = .arr [.str (codesL "u")] ∧
    parse_top_urls (fenceJson (strL "`\x7b\"top_urls\": [\"u\"]\x7d`")) = .arr [] := by
  refine ⟨by rfl, by rfl, fun h => JValue.noConfusion h, by rfl, by rfl⟩

/-! ## Claims C1 and C2: the pick-next loop -/

theorem scnSteps_succ (s : MEGlobalState) (n : Nat) :
    scnSteps s (n + 1) = (scnSteps s n).bind should_continue_node := rfl

theorem scn_step_select (es cal : List MEEvent) (ce : Option MEEvent) (k : Nat)
    (hk : k < es.length) :
    should_continue_node ⟨es, ce, (k : Int), cal⟩
      = .ok ⟨es, some (es.get ⟨k, hk⟩), (k : Int) + 1, cal⟩ := by
  have hne : es.isEmpty = false := by
    cases es with
    | nil => simp at hk
    | cons a l => rfl
  have hlt : ((k : Int)) < ((es.length : Int)) := by exact_mod_cast hk
  have hidx : pyListIndex es ((k : Int)) = some (es.get ⟨k, hk⟩) := by
    unfold pyListIndex
    rw [if_pos (by omega)]
    rw [show ((k : Int)).toNat = k by omega]
    exact List.get?_eq_get hk
  unfold should_continue_node
  rw [if_pos ⟨hne, hlt⟩, hidx]

theorem scn_step_clear (es cal : List MEEvent) (ce : Option MEEvent) (i : Int)
    (hi : ¬(es.isEmpty = false ∧ i < (es.length : Int))) :
    should_continue_node ⟨es, ce, i, cal⟩ = .ok ⟨es, none, i, cal⟩ := by
  unfold should_continue_node
  rw [if_neg hi]

theorem scnSteps_from_zero (es cal : List MEEvent) (ce : Option MEEvent) (k : Nat)
    (hk : k < es.length) :
    scnSteps ⟨es, ce, 0, cal⟩ (k + 1)
      = .ok ⟨es, some (es.get ⟨k, hk⟩), (k : Int) + 1, cal⟩ := by
  induction k with
  | zero =>
    rw [scnSteps_succ]
    show should_continue_node ⟨es, ce, 0, cal⟩ = _
    exact scn_step_select es cal ce 0 hk
  | succ k ih =>
    have hk' : k < es.length := Nat.lt_of_succ_lt hk
    rw [scnSteps_succ, ih hk']
    show should_continue_node ⟨es, some (es.get ⟨k, hk'⟩), (k : Int) + 1, cal⟩ = _
    have := scn_step_select es cal (some (es.get ⟨k, hk'⟩)) (k + 1) hk
    rw [show (((k + 1 : Nat)) : Int) = (k : Int) + 1 by push_cast; ring] at this
    exact this

theorem scnSteps_zero_terminal (es cal : List MEEvent) (ce : Option MEEvent) :
    scnSteps ⟨es, ce, 0, cal⟩ (es.length + 1)
      = .ok ⟨es, none, (es.length : Int), cal⟩ := by
  cases hes : es with
  | nil =>
    rw [scnSteps_succ]
    show should_continue_node ⟨[], ce, 0, cal⟩ = _
    exact scn_step_clear [] cal ce 0 (by simp)
  | cons a l =>
    have hk : (a :: l).length - 1 < (a :: l).length := by simp
    rw [scnSteps_succ]
    conv_lhs => rw [show (a :: l).length = ((a :: l).length - 1) + 1 by omega]
    rw [scnSteps_from_zero (a :: l) cal ce ((a :: l).length - 1) hk]
    show should_continue_node _ = _
    have hidx : (((a :: l).length - 1 : Nat) : Int) + 1 = (((a :: l).length : Nat) : Int) := by
      have : 1 ≤ (a :: l).length := by simp
      push_cast [this]
      ring
    rw [hidx]
    exact scn_step_clear (a :: l) cal _ ((a :: l).length : Int) (by
      intro hcontra
      exact absurd hcontra.2 (by omega))

theorem scnSteps_shift (s s' : MEGlobalState) (h : should_continue_node s = .ok s') (n : Nat) :
    scnSteps s (n + 1) = scnSteps s' n := by
  induction n with
  | zero =>
    rw [scnSteps_succ]
    show should_continue_node s = _
    rw [h]
    rfl
  | succ n ih =>
    rw [scnSteps_succ, ih, ← scnSteps_succ]

theorem route_continue_of_some (es cal : List MEEvent) (e : MEEvent) (i : Int)
    (hne : es ≠ []) :
    should_continue_route ⟨es, some e, i, cal⟩ = .continueBranch := by
  unfold should_continue_route
  rw [if_pos ⟨by simpa using hne, rfl⟩]

theorem route_end_of_none (es cal : List MEEvent) (i : Int) :
    should_continue_route ⟨es, none, i, cal⟩ = .endBranch := by
  unfold should_continue_route
  rw [if_neg (by intro h; exact Bool.false_ne_true h.2)]

/-- C1.  For every shared state whose `upcoming_events` has length N and whose
`current_event_index` starts at 0, the pick-next node selects each of the N
events exactly once and in index order (the (k+1)-th application selects
`upcoming_events[k]` and advances the cursor to k+1, routing to the continue
branch), and the application made when the cursor equals N sets
`current_event` to `None` — at which point the conditional edge selects the
terminal branch. -/
theorem c1_pick_next_loop (es cal : List MEEvent) (ce : Option MEEvent) :
    (∀ k (hk : k < es.length),
        scnSteps ⟨es, ce, 0, cal⟩ (k + 1)
          = .ok ⟨es, some (es.get ⟨k, hk⟩), (k : Int) + 1, cal⟩ ∧
        should_continue_route ⟨es, some (es.get ⟨k, hk⟩), (k : Int) + 1, cal⟩
          = .continueBranch) ∧
    scnSteps ⟨es, ce, 0, cal⟩ (es.length + 1) = .ok ⟨es, none, (es.length : Int), cal⟩ ∧
    should_continue_route ⟨es, none, (es.length : Int), cal⟩ = .endBranch := by
  refine ⟨fun k hk => ⟨scnSteps_from_zero es cal ce k hk, ?_⟩,
    scnSteps_zero_terminal es cal ce, route_end_of_none es cal _⟩
  exact route_continue_of_some es cal _ _ (List.ne_nil_of_length_pos (by omega))

/-- Witness for C1 on a two-event list: the first application selects the first
event, the second the second, and the third clears the entity and ends the
loop. -/
theorem c1_pick_next_loop_witness :
    scnSteps ⟨[evA, evB], none, 0, []⟩ 1 = .ok ⟨[evA, evB], some evA, 1, []⟩ ∧
    scnSteps ⟨[evA, evB], none, 0, []⟩ 2 = .ok ⟨[evA, evB], some evB, 2, []⟩ ∧
    scnSteps ⟨[evA, evB], none, 0, []⟩ 3 = .ok ⟨[evA, evB], none, 2, []⟩ ∧
    should_continue_route ⟨[evA, evB], none, 2, []⟩ = .endBranch := by
  have h := c1_pick_next_loop [evA, evB] [] none
  refine ⟨?_, ?_, ?_, h.2.2⟩
  · have := (h.1 0 (by decide)).1
    simpa using this
  · have := (h.1 1 (by decide)).1
    simpa using this
  · have := h.2.1
    simpa using this

/-- C2.  A freshly constructed `GlobalState` has `current_event_index = -1`;
for every state with a non-empty event list and that default cursor, the first
application of the pick-next node selects `upcoming_events[-1]` — the last
event, by Python negative indexing — and advances the cursor to 0; the
(k+2)-th application then selects `upcoming_events[k]`, so the last event is
selected again at application N+1 when the cursor reaches N-1; each of the
first N+1 applications routes to the continue branch (the loop body runs N+1
times, not N), and application N+2 clears the entity and ends the loop. -/
theorem c2_default_cursor_revisits_last (es cal : List MEEvent) (ce : Option MEEvent)
    (hne : es ≠ []) :
    defaultMEGlobalState.current_event_index = -1 ∧
    scnSteps ⟨es, ce, -1, cal⟩ 1 = .ok ⟨es, some (es.getLast hne), 0, cal⟩ ∧
    (∀ k (hk : k < es.length),
        scnSteps ⟨es, ce, -1, cal⟩ (k + 2)
          = .ok ⟨es, some (es.get ⟨k, hk⟩), (k : Int) + 1, cal⟩) ∧
    scnSteps ⟨es, ce, -1, cal⟩ (es.length + 1)
      = .ok ⟨es, some (es.getLast hne), (es.length : Int), cal⟩ ∧
    (∀ j, j < es.length + 1 →
        ∃ s', scnSteps ⟨es, ce, -1, cal⟩ (j + 1) = .ok s' ∧
          should_continue_route s' = .continueBranch) ∧
    scnSteps ⟨es, ce, -1, cal⟩ (es.length + 2) = .ok ⟨es, none, (es.length : Int), cal⟩ ∧
    should_continue_route ⟨es, none, (es.length : Int), cal⟩ = .endBranch := by
  have hlen : 0 < es.length := List.length_pos.mpr hne
  have hlast : es.getLast hne = es.get ⟨es.length - 1, by omega⟩ := List.getLast_eq_get es hne
  have hfirst : should_continue_node ⟨es, ce, -1, cal⟩
      = .ok ⟨es, some (es.getLast hne), 0, cal⟩ := by
    have hne' : es.isEmpty = false := by simpa using hne
    have hidx : pyListIndex es (-1) = some (es.getLast hne) := by
      unfold pyListIndex
      rw [if_neg (by omega), if_pos (by simpa using hlen)]
      rw [show (-(-1 : Int)).toNat = 1 by rfl, hlast]
      exact List.get?_eq_get (by omega)
    unfold should_continue_node
    rw [if_pos ⟨hne', show (-1 : Int) < (es.length : Int) by omega⟩, hidx]
    norm_num
  have hstep1 : scnSteps ⟨es, ce, -1, cal⟩ 1 = .ok ⟨es, some (es.getLast hne), 0, cal⟩ := by
    rw [scnSteps_succ]
    exact hfirst
  have hshift := scnSteps_shift ⟨es, ce, -1, cal⟩ ⟨es, some (es.getLast hne), 0, cal⟩ hfirst
  have hwalk : ∀ k (hk : k < es.length),
      scnSteps ⟨es, ce, -1, cal⟩ (k + 2)
        = .ok ⟨es, some (es.get ⟨k, hk⟩), (k : Int) + 1, cal⟩ := by
    intro k hk
    rw [show k + 2 = (k + 1) + 1 by omega, hshift (k + 1)]
    exact scnSteps_from_zero es cal _ k hk
  have hlaststep : scnSteps ⟨es, ce, -1, cal⟩ (es.length + 1)
      = .ok ⟨es, some (es.getLast hne), (es.length : Int), cal⟩ := by
    have := hwalk (es.length - 1) (by omega)
    rw [show es.length - 1 + 2 = es.length + 1 by omega] at this
    rw [this, hlast]
    have : ((es.length - 1 : Nat) : Int) + 1 = ((es.length : Nat) : Int) := by
      push_cast [hlen]
      omega
    rw [this]
  refine ⟨rfl, hstep1, hwalk, hlaststep, ?_, ?_, route_end_of_none es cal _⟩
  · intro j hj
    cases j with
    | zero =>
      exact ⟨_, hstep1, route_continue_of_some es cal _ _ hne⟩
    | succ k =>
      have hk : k < es.length := by omega
      exact ⟨_, by rw [show k + 1 + 1 = k + 2 by omega]; exact hwalk k hk,
        route_continue_of_some es cal _ _ hne⟩
  · rw [show es.length + 2 = (es.length + 1) + 1 by omega, hshift (es.length + 1)]
    exact scnSteps_zero_terminal es cal _

/-- Witness for C2 on a two-event list with the default cursor: the first
application selects the second (last) event, then the walk revisits it, for
three continue rounds in total before the terminal branch. -/
theorem c2_default_cursor_witness :
    scnSteps ⟨[evA, evB], none, -1, []⟩ 1 = .ok ⟨[evA, evB], some evB, 0, []⟩ ∧
    scnSteps ⟨[evA, evB], none, -1, []⟩ 3 = .ok ⟨[evA, evB], some evB, 2, []⟩ ∧
    scnSteps ⟨[evA, evB], none, -1, []⟩ 4 = .ok ⟨[evA, evB], none, 2, []⟩ := by
  have h := c2_default_cursor_revisits_last [evA, evB] [] none (by simp)
  refine ⟨?_, ?_, ?_⟩
  · have := h.2.1
    simpa using this
  · have := (h.2.2.1 1 (by decide))
    simpa using this
  · have := h.2.2.2.2.2.1
    simpa using this

/-! ## Claim C3: behavior of the parsers on invalid JSON -/

/-- C3 (amended).  For every input that is not valid JSON after cleanup (both
decode modes fail), `EventsAgent.parse_upcoming_events` and
`SearchAgent.parse_top_urls` return the empty list and
`SummarizerAgent.parse_summary` returns its error marker, none of them raising;
but `MetadataAgent.parse_game_details` — contrary to the claim as stated — has
no internal `try` and raises the decode error to its caller `execute`, which
catches it and leaves `game_details` untouched. -/
theorem c3_invalid_json_behavior (t : List Char) (gs : NBAGlobalState)
    (hs : jsonLoads true (pyCleanup t) = .error ())
    (hl : jsonLoads false (pyCleanup t) = .error ()) :
    parse_upcoming_events t = .arr [] ∧
    parse_top_urls t = .arr [] ∧
    parse_summary t = .error () ∧
    parse_game_details t = .error () ∧
    MetadataAgent.applyParse t gs = gs := by
  have h4 : parse_game_details t = .error () := by
    unfold parse_game_details
    rw [hl]
    rfl
  refine ⟨?_, ?_, ?_, h4, ?_⟩
  · unfold parse_upcoming_events
    rw [hs]
  · unfold parse_top_urls
    rw [hl]
  · unfold parse_summary
    exact hl
  · unfold MetadataAgent.applyParse
    rw [h4]

/-- Witness for C3 at the concrete non-JSON input `not json`. -/
theorem c3_invalid_json_witness :
    parse_upcoming_events (strL "not json") = .arr [] ∧
    parse_game_details (strL "not json") = .error () ∧
    MetadataAgent.applyParse (strL "not json") gsSample = gsSample := by
  have h := c3_invalid_json_behavior (strL "not json") gsSample (by rfl) (by rfl)
  exact ⟨h.1, h.2.2.2.1, h.2.2.2.2⟩

/-- Counterexample to C3 as stated: `MetadataAgent.parse_game_details` does not
return a failure value on non-JSON input — it raises the decode exception to
its caller (rendered as the `Except` error of the embedded function). -/
theorem c3_counterexample :
    parse_game_details (strL "not json") = .error () := by rfl

/-! ## Claim C5: strict versus lenient decoding -/

/-- C5 (amended).  `SearchAgent.parse_top_urls`, `SummarizerAgent.parse_summary`
and the `decide` steps of DataAgent and AnalysisAgent decode with
`strict=False`, so an input whose only defect is raw control bytes inside JSON
string values parses successfully; `EventsAgent.parse_upcoming_events` — contrary
to the claim as stated — decodes in the default strict mode and returns its
empty-list failure value on such inputs. -/
theorem c5_lenient_except_events (t : List Char) (v : JValue)
    (h : jsonLoads false (pyCleanup t) = .ok v) :
    parse_summary t = .ok v ∧
    (∀ items, v = .obj items →
        parse_top_urls t = (lookupLast items (codesL "top_urls")).getD (.arr [])) ∧
    jsonLoads false (pyCleanup ctlDefectInput) = .ok ctlDefectValue ∧
    parse_top_urls ctlDefectInput = .arr [.str (codesL "u\nv")] ∧
    parse_summary ctlDefectInput = .ok ctlDefectValue ∧
    dataDecideOutcome ctlDefectInput = .answerStep (.str (codesL "ok\nready")) ∧
    analysisDecideOutcome ctlDefectInput = .answerStep (.str (codesL "ok\nready")) ∧
    jsonLoads true (pyCleanup ctlDefectInput) = .error () ∧
    parse_upcoming_events ctlDefectInput = .arr [] := by
  refine ⟨?_, ?_, by rfl, by rfl, by rfl, by rfl, by rfl, by rfl, by rfl⟩
  · unfold parse_summary
    exact h
  · intro items hv
    unfold parse_top_urls
    rw [h, hv]

/-- Witness for C5 at the control-byte input itself. -/
theorem c5_lenient_witness :
    parse_summary ctlDefectInput = .ok ctlDefectValue ∧
    parse_top_urls ctlDefectInput
      = (lookupLast [(codesL "top_urls", .arr [.str (codesL "u\nv")]),
          (codesL "answer", .str (codesL "ok\nready"))] (codesL "top_urls")).getD (.arr []) := by
  have h := c5_lenient_except_events ctlDefectInput ctlDefectValue (by rfl)
  exact ⟨h.1, h.2.1 _ (by rfl)⟩

/-- Counterexample to C5 as stated: on an input whose only defect is raw
newline bytes inside string values (the lenient decode succeeds), the
EventsAgent parse does not succeed — its strict decode rejects the control
bytes and the parse returns the empty failure value. -/
theorem c5_counterexample :
    jsonLoads false (pyCleanup ctlDefectInput) = .ok ctlDefectValue ∧
    jsonLoads true (pyCleanup ctlDefectInput) = .error () ∧
    parse_upcoming_events ctlDefectInput = .arr [] := by
  exact ⟨by rfl, by rfl, by rfl⟩

/-! ## Claim C6: LLM gateway failure in the single-shot agents -/

/-- C6 (amended).  When the LLM gateway returns a falsy response, neither
single-shot agent raises: `EventsAgent.execute` returns the state completely
untouched (so `upcoming_events` keeps its prior value), but
`SummarizerAgent.execute` — contrary to the claim as stated — does not leave
`current_event.summary` unset: it stores the fixed error text
`Error: No response from LLM during summary generation.`. -/
theorem c6_llm_failure_behavior (s : MEGlobalState) (resp : Option (List Char))
    (hresp : ¬ pyTruthyOptStr resp) :
    EventsAgent.execute resp s = .ok s ∧
    (∀ ce, s.current_event = some ce → pyTruthy ce.name = true →
        SummarizerAgent.execute resp s
          = .ok { s with current_event := some { ce with summary := some summarizerNoResponseMsg } }) := by
  constructor
  · unfold EventsAgent.execute
    rw [if_pos hresp]
  · intro ce hce hname
    simp [SummarizerAgent.execute, hce, hname, hresp]

/-- Witness for C6: a state holding one current event, with a failed LLM call. -/
theorem c6_llm_failure_witness :
    EventsAgent.execute none ⟨[evA], some evA, -1, []⟩ = .ok ⟨[evA], some evA, -1, []⟩ ∧
    SummarizerAgent.execute none ⟨[evA], some evA, -1, []⟩
      = .ok ⟨[evA], some { evA with summary := some summarizerNoResponseMsg }, -1, []⟩ := by
  have h := c6_llm_failure_behavior ⟨[evA], some evA, -1, []⟩ none (by simp [pyTruthyOptStr])
  exact ⟨h.1, h.2 evA rfl (by rfl)⟩

/-- Counterexample to C6 as stated: after a failed LLM call the summarizer's
`current_event.summary` is not unset — it holds the error text. -/
theorem c6_counterexample :
    SummarizerAgent.execute none ⟨[evA], some evA, -1, []⟩
      = .ok ⟨[evA], some { evA with summary := some summarizerNoResponseMsg }, -1, []⟩ ∧
    (some summarizerNoResponseMsg : Option (List Char)) ≠ none := by
  exact ⟨by rfl, by simp⟩

/-! ## Claims C7 and C8: tool dispatch in DataAgent.act -/

/-- C7 (amended).  When the model requests an unregistered tool name,
`DataAgent.act` writes the line `Error: Tool {name} not found` to the output
trace file but — contrary to the claim as stated, and as the source's own TODO
remarks — appends nothing to the in-memory message history used to build the
next prompt (its `trace` skips `system`-role messages); the agent then
re-enters `think` with the shared state untouched, so the unknown name neither
fails the agent nor terminates the run. -/
theorem c7_unknown_tool_behavior (tools : List (List Char × PyTool)) (mx : Nat)
    (env : Nat → List Char) (da : DAState) (gs : NBAGlobalState)
    (name : List Char) (q : Option JValue)
    (hbudget : da.current_iteration + 1 ≤ mx)
    (hresp : dataDecideOutcome (env (da.current_iteration + 1)) = .actStep name q)
    (hunk : lookupTool tools name = none) :
    dataActEffects tools name q gs
      = { newMessages := [],
          newTraceLines := [strL "system" ++ strL ": " ++ strL "Error: Tool " ++ name
            ++ strL " not found" ++ strL "\n"],
          gsAfter := gs } ∧
    dataThink tools mx env da gs
      = dataThink tools mx env
          { messages := da.messages
              ++ [⟨strL "assistant", strL "Thought: " ++ env (da.current_iteration + 1)⟩,
                  ⟨strL "assistant", strL "Action: Using " ++ name ++ strL " tool"⟩],
            traceFile := da.traceFile ++ [iterHeader (da.current_iteration + 1),
              strL "assistant" ++ strL ": "
                ++ (strL "Thought: " ++ env (da.current_iteration + 1)) ++ strL "\n",
              strL "assistant" ++ strL ": "
                ++ (strL "Action: Using " ++ name ++ strL " tool") ++ strL "\n",
              strL "system" ++ strL ": " ++ strL "Error: Tool " ++ name
                ++ strL " not found" ++ strL "\n"],
            current_iteration := da.current_iteration + 1,
            llmCalls := da.llmCalls + 1 } gs := by
  have heff : dataActEffects tools name q gs
      = { newMessages := [],
          newTraceLines := [strL "system" ++ strL ": " ++ strL "Error: Tool " ++ name
            ++ strL " not found" ++ strL "\n"],
          gsAfter := gs } := by
    unfold dataActEffects
    rw [hunk]
  refine ⟨heff, ?_⟩
  have hnb : ¬ (da.current_iteration + 1 > mx) := by omega
  conv_lhs => rw [dataThink.eq_def]
  simp only [hnb, dite_false, dif_neg, hresp, heff, daTrace]
  simp [List.append_assoc, show strL "assistant" ≠ strL "system" by decide]

/-- Witness for C7: with the registry of the data agent, the name
`BOGUS_TOOL` is unregistered, and act leaves the message history and shared
state untouched while recording the trace-file line. -/
theorem c7_unknown_tool_witness :
    dataActEffects toolsWithFailingGames (strL "BOGUS_TOOL") none gsSample
      = { newMessages := [],
          newTraceLines := [strL "system" ++ strL ": " ++ strL "Error: Tool "
            ++ strL "BOGUS_TOOL" ++ strL " not found" ++ strL "\n"],
          gsAfter := gsSample } := by
  exact (c7_unknown_tool_behavior toolsWithFailingGames 5 envUnknownThenAnswer {} gsSample
    (strL "BOGUS_TOOL") none (by decide) (by rfl) (by rfl)).1

/-- Counterexample to C7 as stated: at a concrete unknown-tool request nothing
is appended to the message history that builds the next prompt — the error is
recorded only in the output trace file. -/
theorem c7_counterexample :
    (dataActEffects toolsWithFailingGames (strL "BOGUS_TOOL") none gsSample).newMessages = [] ∧
    (dataActEffects toolsWithFailingGames (strL "BOGUS_TOOL") none gsSample).newTraceLines
      = [strL "system" ++ strL ": " ++ strL "Error: Tool " ++ strL "BOGUS_TOOL"
          ++ strL " not found" ++ strL "\n"] := by
  exact ⟨by rfl, by rfl⟩

/-- C8 (amended).  Every exception raised by a tool's underlying callable is
caught inside `Tool.use` and becomes the text `Error in tool {name}: {e}`;
invoked through `DataAgent.act`, that text becomes an observation appended to
the message history and the trace file with the shared state unchanged.  This
includes the data-loading tools: their internal `raise` statements are caught
by `Tool.use` like any other exception, so — contrary to the claim as
stated — nothing is raised past the agent boundary and no tool failure is
fatal to the run through this path. -/
theorem c8_tool_exceptions_become_observations
    (t : PyTool) (input : Option JValue) (e : List Char)
    (hfail : t.func (t.callForm input) = .error e)
    (tools : List (List Char × PyTool)) (name : List Char) (gs : NBAGlobalState)
    (hfound : lookupTool tools name = some t) :
    t.use input = .errText (strL "Error in tool " ++ t.name ++ strL ": " ++ e) ∧
    dataActEffects tools name input gs
      = { newMessages := [⟨strL "system", strL "Observation from " ++ name ++ strL ": "
            ++ (strL "Error in tool " ++ t.name ++ strL ": " ++ e)⟩],
          newTraceLines := [strL "system" ++ strL ": " ++ (strL "Observation from " ++ name
            ++ strL ": " ++ (strL "Error in tool " ++ t.name ++ strL ": " ++ e)) ++ strL "\n"],
          gsAfter := gs } := by
  have huse : t.use input = .errText (strL "Error in tool " ++ t.name ++ strL ": " ++ e) := by
    unfold PyTool.use
    rw [hfail]
  refine ⟨huse, ?_⟩
  unfold dataActEffects
  simp only [hfound, huse]
  by_cases h1 : name = strL "LOAD_UPCOMING_NBA_GAMES_AND_BETS"
  · rw [if_pos h1]
    rfl
  · rw [if_neg h1]
    by_cases h2 : name = strL "LOAD_PLAYERS_STATS"
    · rw [if_pos h2]
      rfl
    · rw [if_neg h2]
      rfl

/-- Witness for C8: the games loader with an empty team table raises, and the
caught error reaches the observation with the state unchanged. -/
theorem c8_tool_exceptions_witness :
    gamesToolSample.use none
      = .errText (strL "Error in tool " ++ gamesToolSample.name ++ strL ": "
          ++ strL "No active exception to re-raise") ∧
    (dataActEffects toolsWithFailingGames (strL "LOAD_UPCOMING_NBA_GAMES_AND_BETS")
        none gsSample).gsAfter = gsSample := by
  have h := c8_tool_exceptions_become_observations gamesToolSample none
    (strL "No active exception to re-raise") (by rfl)
    toolsWithFailingGames (strL "LOAD_UPCOMING_NBA_GAMES_AND_BETS") gsSample (by rfl)
  exact ⟨h.1, by rw [h.2]⟩

/-- Counterexample to C8's exception clause as stated: a failure of the
data-loading path is not raised past the agent boundary — the loader's bare
`raise` is caught inside `Tool.use` and act returns normally with the shared
state unchanged. -/
theorem c8_counterexample :
    load_upcoming_nba_games nbaClientNoTeams = .error (strL "No active exception to re-raise") ∧
    gamesToolSample.use none
      = .errText (strL "Error in tool load_upcoming_nba_games_and_bets: No active exception to re-raise") ∧
    (dataActEffects toolsWithFailingGames (strL "LOAD_UPCOMING_NBA_GAMES_AND_BETS")
        none gsSample).gsAfter = gsSample := by
  exact ⟨by rfl, by rfl, by rfl⟩

/-! ## Claims C9 and C10: the iteration budget of the think loop -/

/-- C9.  For each iterative agent — DataAgent with its default budget of 5 and
AnalysisAgent with its budget of 2 — a `think` call made once the iteration
counter has reached the budget returns immediately: it only increments the
internal counter and writes the iteration banner to the trace file, makes no
LLM call (`llmCalls`, the ghost call counter, is unchanged), leaves the message
history unchanged, and returns the shared state — `required_data_loaded`,
`final_answer` and every other field — exactly as it was. -/
theorem c9_over_budget_think_is_noop (tools : List (List Char × PyTool)) (mxd mxa : Nat)
    (env : Nat → List Char) (da : DAState) (an : ANState) (gs gs2 : NBAGlobalState)
    (hd : mxd ≤ da.current_iteration) (ha : mxa ≤ an.current_iteration) :
    dataThink tools mxd env da gs
      = ({ da with current_iteration := da.current_iteration + 1,
                   traceFile := da.traceFile ++ [iterHeader (da.current_iteration + 1)] }, gs) ∧
    analysisThink mxa env an gs2
      = ({ an with current_iteration := an.current_iteration + 1,
                   traceFile := an.traceFile ++ [iterHeader (an.current_iteration + 1)] }, gs2) ∧
    DataAgent.defaultMaxIterations = 5 ∧
    AnalysisAgent.maxIterations = 2 := by
  refine ⟨?_, ?_, rfl, rfl⟩
  · have hb : da.current_iteration + 1 > mxd := by omega
    conv_lhs => rw [dataThink.eq_def]
    simp [hb]
  · have hb : an.current_iteration + 1 > mxa := by omega
    conv_lhs => rw [analysisThink.eq_def]
    simp [hb]

/-- Witness for C9 at concrete over-budget agent states. -/
theorem c9_over_budget_witness :
    dataThink toolsWithFailingGames 5 envJunk ⟨[], [], 5, 0⟩ gsSample
      = (⟨[], [iterHeader 6], 6, 0⟩, gsSample) ∧
    analysisThink 2 envJunk ⟨[], [], 2, 0⟩ gsSample
      = (⟨[], [iterHeader 3], 3, 0⟩, gsSample) := by
  have h := c9_over_budget_think_is_noop toolsWithFailingGames 5 2 envJunk
    ⟨[], [], 5, 0⟩ ⟨[], [], 2, 0⟩ gsSample gsSample (by decide) (by decide)
  refine ⟨?_, ?_⟩
  · rw [h.1]
    rfl
  · rw [h.2.1]
    rfl

theorem daTrace_current_iteration (r c : List Char) (d : DAState) :
    (daTrace r c d).current_iteration = d.current_iteration := by
  simp [daTrace]

theorem daTrace_llmCalls (r c : List Char) (d : DAState) :
    (daTrace r c d).llmCalls = d.llmCalls := by
  simp [daTrace]

theorem anTrace_current_iteration (r c : List Char) (d : ANState) :
    (anTrace r c d).current_iteration = d.current_iteration := by
  simp [anTrace]

theorem anTrace_llmCalls (r c : List Char) (d : ANState) :
    (anTrace r c d).llmCalls = d.llmCalls := by
  simp [anTrace]

theorem dataThink_llmCalls_bound (tools : List (List Char × PyTool)) (mx : Nat)
    (env : Nat → List Char) :
    ∀ (n : Nat) (da : DAState) (gs : NBAGlobalState),
      mx + 1 - da.current_iteration ≤ n →
      (dataThink tools mx env da gs).1.llmCalls
        ≤ da.llmCalls + (mx - da.current_iteration) := by
  intro n
  induction n with
  | zero =>
    intro da gs hn
    have hb : da.current_iteration + 1 > mx := by omega
    conv_lhs => rw [dataThink.eq_def]
    simp [hb]
  | succ n ih =>
    intro da gs hn
    by_cases hb : da.current_iteration + 1 > mx
    · conv_lhs => rw [dataThink.eq_def]
      simp [hb]
    · conv_lhs => rw [dataThink.eq_def]
      rcases hout : dataDecideOutcome (env (da.current_iteration + 1)) with _ | _ | v | ⟨nm, q⟩
      · simp only [hb, dite_false, dif_neg, hout]
        refine le_trans (ih _ gs ?_) ?_
        · simp only [daTrace_current_iteration]
          omega
        · simp only [daTrace_current_iteration, daTrace_llmCalls]
          omega
      · simp only [hb, dite_false, dif_neg, hout]
        refine le_trans (ih _ gs ?_) ?_
        · simp only [daTrace_current_iteration]
          omega
        · simp only [daTrace_current_iteration, daTrace_llmCalls]
          omega
      · simp only [hb, dite_false, dif_neg, hout]
        simp only [daTrace_llmCalls]
        omega
      · simp only [hb, dite_false, dif_neg, hout]
        refine le_trans (ih _ _ ?_) ?_
        · simp only [daTrace_current_iteration]
          omega
        · simp only [daTrace_current_iteration, daTrace_llmCalls]
          omega

theorem analysisThink_llmCalls_bound (mx : Nat) (env : Nat → List Char) :
    ∀ (n : Nat) (an : ANState) (gs : NBAGlobalState),
      mx + 1 - an.current_iteration ≤ n →
      (analysisThink mx env an gs).1.llmCalls
        ≤ an.llmCalls + (mx - an.current_iteration) := by
  intro n
  induction n with
  | zero =>
    intro an gs hn
    have hb : an.current_iteration + 1 > mx := by omega
    conv_lhs => rw [analysisThink.eq_def]
    simp [hb]
  | succ n ih =>
    intro an gs hn
    by_cases hb : an.current_iteration + 1 > mx
    · conv_lhs => rw [analysisThink.eq_def]
      simp [hb]
    · conv_lhs => rw [analysisThink.eq_def]
      rcases hout : analysisDecideOutcome (env (an.current_iteration + 1)) with _ | _ | v | ⟨nm, q⟩
      · simp only [hb, dite_false, dif_neg, hout]
        refine le_trans (ih _ gs ?_) ?_
        · simp only [anTrace_current_iteration]
          omega
        · simp only [anTrace_current_iteration, anTrace_llmCalls]
          omega
      · simp only [hb, dite_false, dif_neg, hout]
        refine le_trans (ih _ gs ?_) ?_
        · simp only [anTrace_current_iteration]
          omega
        · simp only [anTrace_current_iteration, anTrace_llmCalls]
          omega
      · simp only [hb, dite_false, dif_neg, hout]
        simp only [anTrace_llmCalls]
        omega
      · simp only [hb, dite_false, dif_neg, hout]
        refine le_trans (ih _ gs ?_) ?_
        · simp only [anTrace_current_iteration]
          omega
        · simp only [anTrace_current_iteration, anTrace_llmCalls]
          omega

/-- C10.  The think/decide/act recursion of the iterative agents always
terminates — `dataThink` and `analysisThink` are total functions, accepted by
well-founded recursion on `max_iterations + 1 - current_iteration`, because
every entry to `think` increments the counter and `think` returns without
recursing once the counter exceeds the budget.  Consequently a run started on
a fresh agent performs at most `max_iterations` LLM think cycles (counted by
the ghost field `llmCalls`): the retry on parse failure or invalid response
shape is bounded, not infinite. -/
theorem c10_retry_recursion_bounded (tools : List (List Char × PyTool))
    (env : Nat → List Char) (mxd mxa : Nat) (da : DAState) (an : ANState)
    (gs gs2 : NBAGlobalState)
    (hda : da.current_iteration = 0) (hdl : da.llmCalls = 0)
    (han : an.current_iteration = 0) (hal : an.llmCalls = 0) :
    (dataThink tools mxd env da gs).1.llmCalls ≤ mxd ∧
    (analysisThink mxa env an gs2).1.llmCalls ≤ mxa := by
  constructor
  · have h := dataThink_llmCalls_bound tools mxd env (mxd + 1) da gs (by omega)
    rw [hda, hdl] at h
    simpa using h
  · have h := analysisThink_llmCalls_bound mxa env (mxa + 1) an gs2 (by omega)
    rw [han, hal] at h
    simpa using h

/-- Witness for C10 on fresh agents driven by an always-malformed LLM: the
data agent makes at most its default 5 calls and the analysis agent at most
its 2. -/
theorem c10_retry_recursion_witness :
    (dataThink toolsWithFailingGames 5 envJunk {} gsSample).1.llmCalls ≤ 5 ∧
    (analysisThink 2 envJunk {} gsSample).1.llmCalls ≤ 2 :=
  c10_retry_recursion_bounded toolsWithFailingGames envJunk 5 2 {} {} gsSample gsSample
    rfl rfl rfl rfl
